import Mathlib

/-!
Verification development for the "Medieval Gemini" first-person shooter
(procedural world generation, chunk streaming, collision, hitscan combat,
enemy AI).  The definitions below are a shallow embedding, translated
function-by-function from the TypeScript sources.  JavaScript numbers are
modelled by `ℚ`; the transcendental `Math` functions (`sin`, `cos`, `atan2`,
`pow`, `sqrt`) and `Math.PI` are uninterpreted parameters collected in a
`JSMath` structure, so every theorem below holds for every interpretation of
them.  Comparisons of `THREE.Vector3.distanceTo` results (true square roots)
against other distances or constants are represented by comparisons of the
squared distances, which is exact because `Real.sqrt` is monotone on
nonnegative inputs; the abstract `sqrt` field is used only where the source
stores a normalised vector (ragdoll launch velocity, movement directions),
never in a comparison.
-/

/-- Uninterpreted JavaScript `Math` primitives.  Each field is an arbitrary
function `ℚ → ℚ` (or constant); the embedding threads one fixed `JSMath`
through every definition, mirroring that a JS engine's `Math.sin` etc. are
fixed pure functions. -/
structure JSMath where
  sin : ℚ → ℚ
  cos : ℚ → ℚ
  atan2 : ℚ → ℚ → ℚ
  pow : ℚ → ℚ → ℚ
  sqrt : ℚ → ℚ
  pi : ℚ

/-- A concrete interpretation (everything `0`), used to evaluate the
embedding on explicit inputs in witnesses and counterexamples. -/
def mZero : JSMath :=
  { sin := fun _ => 0, cos := fun _ => 0, atan2 := fun _ _ => 0,
    pow := fun _ _ => 0, sqrt := fun _ => 0, pi := 0 }

/-- `x - Math.floor(x)`, the fractional part used by the noise hash. -/
def jsFract (x : ℚ) : ℚ := x - ⌊x⌋

/-- JavaScript `Math.trunc` (round toward zero). -/
def jsTrunc (x : ℚ) : ℤ := if 0 ≤ x then ⌊x⌋ else ⌈x⌉

/-- JavaScript `%` on numbers: remainder with the sign of the dividend,
`a % b = a - b * trunc(a / b)`. -/
def jsRem (a b : ℚ) : ℚ := a - b * (jsTrunc (a / b) : ℚ)

/-- `ToUint32`: the residue of an integer modulo `2^32`. -/
def toUInt32Z (n : ℤ) : ℕ := (n % 4294967296).toNat

/-- `ToInt32`: JavaScript's 32-bit signed wrap-around. -/
def toInt32Z (n : ℤ) : ℤ :=
  let u := toUInt32Z n
  if u < 2147483648 then (u : ℤ) else (u : ℤ) - 4294967296

/-- JavaScript `a ^ b` (bitwise XOR): both operands are converted by
`ToInt32`, xored on their 32-bit two's-complement patterns, and the result
is read back as a signed 32-bit integer. -/
def jsXor (a b : ℤ) : ℤ :=
  let u := Nat.xor (toUInt32Z a) (toUInt32Z b)
  if u < 2147483648 then (u : ℤ) else (u : ℤ) - 4294967296

/-- `THREE.Vector3` (a JS number triple). -/
structure Vec3 where
  x : ℚ
  y : ℚ
  z : ℚ
deriving DecidableEq, Repr

instance : Add Vec3 := ⟨fun a b => ⟨a.x + b.x, a.y + b.y, a.z + b.z⟩⟩

instance : Sub Vec3 := ⟨fun a b => ⟨a.x - b.x, a.y - b.y, a.z - b.z⟩⟩

instance : SMul ℚ Vec3 := ⟨fun c v => ⟨c * v.x, c * v.y, c * v.z⟩⟩

/-- `Vector3.dot`. -/
def Vec3.dot (a b : Vec3) : ℚ := a.x * b.x + a.y * b.y + a.z * b.z

/-- `Vector3.lengthSq`. -/
def Vec3.lengthSq (a : Vec3) : ℚ := a.x * a.x + a.y * a.y + a.z * a.z

/-- `Vector3.normalize`: divide by `length`; the irrational square root is
the uninterpreted `sqrt` field (values produced this way are stored, never
compared). -/
def vnormalize (m : JSMath) (v : Vec3) : Vec3 := (1 / m.sqrt v.lengthSq) • v

/- ---------------------------------------------------------------- -/
/- Terrain & noise (final variant, seed-threaded).                   -/
/- ---------------------------------------------------------------- -/

/-- `noise(x, z, seed)`: trigonometric scrambling hash producing a value in
`[0, 1)`. -/
def noise (m : JSMath) (x z seed : ℚ) : ℚ :=
  let s := m.sin (x * 12.9898 + z * 78.233 + jsRem seed 1000) * 43758.5453123
  jsFract s

/-- `smoothNoise`: bilinear interpolation of the four lattice corners with a
quintic smoothstep. -/
def smoothNoise (m : JSMath) (x z seed : ℚ) : ℚ :=
  let i : ℤ := ⌊x⌋
  let j : ℤ := ⌊z⌋
  let f := x - (i : ℚ)
  let g := z - (j : ℚ)
  let a := noise m (i : ℚ) (j : ℚ) seed
  let b := noise m ((i : ℚ) + 1) (j : ℚ) seed
  let c := noise m (i : ℚ) ((j : ℚ) + 1) seed
  let d := noise m ((i : ℚ) + 1) ((j : ℚ) + 1) seed
  let u := f * f * f * (f * (f * 6 - 15) + 10)
  let v := g * g * g * (g * (g * 6 - 15) + 10)
  (1 - u) * (1 - v) * a + u * (1 - v) * b + (1 - u) * v * c + u * v * d

/-- `getRoadInfluence`: `1` inside the road band around the `0.5` iso-level
of a low-frequency noise sample, else `0`. -/
def getRoadInfluence (m : JSMath) (x z seed : ℚ) : ℚ :=
  let n := smoothNoise m (x * 0.005) (z * 0.005) seed
  if |n - 0.5| < 0.05 then 1 else 0

/-- `getTerrainHeight` (final variant): two octaves, then
`Math.pow(|y|, 1.2)`, blended toward the smooth base height on roads. -/
def getTerrainHeight (m : JSMath) (x z seed : ℚ) : ℚ :=
  let amp : ℚ := 10
  let freq : ℚ := 0.02
  let y := smoothNoise m (x * freq) (z * freq) seed * amp
    + smoothNoise m (x * freq * 2) (z * freq * 2) seed * (amp / 2)
  let height := m.pow |y| 1.2
  let road := getRoadInfluence m x z seed
  if road > 0 then
    let smoothBase := smoothNoise m (x * freq) (z * freq) seed * amp
    height * 0.1 + smoothBase * 0.9
  else height

/-- `seededRandom(seed)`: `fract(sin(seed) * 10000)`. -/
def seededRandom (m : JSMath) (seed : ℚ) : ℚ := jsFract (m.sin seed * 10000)

/- ---------------------------------------------------------------- -/
/- Obstacles and the structure generator (final variant).            -/
/- ---------------------------------------------------------------- -/

/-- All obstacle type tags appearing across the repository's variants. -/
inductive ObstacleType
  | tree | rock | ruin | mountain | wall | roof | shop_table | well | signpost | house
deriving DecidableEq, Repr

/-- Box-collision dimensions (`dims: { w, d, h }`). -/
structure Dims where
  w : ℚ
  d : ℚ
  h : ℚ
deriving DecidableEq, Repr

/-- Obstacle id.  The source builds string ids
`"{cx}:{cz}:{tag...}"`; the embedding keeps the two chunk-coordinate
fields structurally (spec §9 notes they are recoverable by parsing the
first two `:`-separated fields — `id.split(':')` / `parseInt` correspond
exactly to the `cx`/`cz` projections for every id this generator emits). -/
structure ObstId where
  cx : ℤ
  cz : ℤ
  tag : String
deriving DecidableEq, Repr

/-- A placed static world object (final variant's `Obstacle` interface). -/
structure Obstacle where
  id : ObstId
  type : ObstacleType
  position : Vec3
  rotation : ℚ
  scale : Vec3
  radius : ℚ
  dims : Option Dims := none
deriving DecidableEq, Repr

def CHUNK_SIZE : ℚ := 60

def RENDER_DISTANCE : ℤ := 2

def WALL_HEIGHT : ℚ := 5

inductive BuildingType
  | cottage | tower | market
deriving DecidableEq, Repr

/-- `generateBuilding`: decomposes a structure into independent obstacle
records (walls as oriented boxes, a roof record, accessories).  `icx`,
`icz`, `ipref` carry the id prefix `"{chunkX}:{chunkZ}:{pref}"`. -/
def generateBuilding (m : JSMath) (bt : BuildingType) (x z y rot : ℚ)
    (icx icz : ℤ) (ipref : String) : List Obstacle :=
  match bt with
  | .market =>
    let w : ℚ := 6
    let d : ℚ := 6
    let h : ℚ := 4
    let pillars : List Obstacle :=
      ([-1, 1] : List ℤ).flatMap fun dx => ([-1, 1] : List ℤ).map fun dz =>
        { id := ⟨icx, icz, ipref ++ s!":pillar:{dx}:{dz}"⟩
          type := .wall
          position := ⟨x + (dx : ℚ) * (w / 2.2), y + h / 2, z + (dz : ℚ) * (d / 2.2)⟩
          rotation := 0
          scale := ⟨1, 1, 1⟩
          radius := 0.5
          dims := some ⟨0.5, 0.5, h⟩ }
    pillars ++
      [{ id := ⟨icx, icz, ipref ++ ":roof"⟩, type := .wall
         position := ⟨x, y + h, z⟩, rotation := 0, scale := ⟨1, 1, 1⟩
         radius := 0, dims := some ⟨w, d, 0.5⟩ },
       { id := ⟨icx, icz, ipref ++ ":shop"⟩, type := .shop_table
         position := ⟨x, y, z⟩, rotation := rot, scale := ⟨1, 1, 1⟩
         radius := 3, dims := none }]
  | .tower =>
    let w : ℚ := 5
    let d : ℚ := 5
    let h : ℚ := 12
    let cosr := m.cos rot
    let sinr := m.sin rot
    let mkWall : ℕ → ℚ → ℚ → ℚ → ℚ → Obstacle := fun i px pz wr dw =>
      { id := ⟨icx, icz, ipref ++ s!":wall:{i}"⟩
        type := .wall
        position := ⟨x + (px * cosr - pz * sinr), y + h / 2, z + (px * sinr + pz * cosr)⟩
        rotation := rot + wr
        scale := ⟨1, 1, 1⟩
        radius := 1
        dims := some ⟨dw, 1, h⟩ }
    [mkWall 0 0 (-(d / 2)) 0 w,
     mkWall 1 0 (d / 2) 0 w,
     mkWall 2 (-(w / 2)) 0 (m.pi / 2) d,
     mkWall 3 (w / 2) 0 (m.pi / 2) d] ++
      [{ id := ⟨icx, icz, ipref ++ ":roof"⟩, type := .roof
         position := ⟨x, y + h, z⟩, rotation := rot
         scale := ⟨w + 2, 6, d + 2⟩, radius := 0, dims := none }]
  | .cottage =>
    let width : ℚ := 8
    let depth : ℚ := 8
    let h := WALL_HEIGHT
    let cosr := m.cos rot
    let sinr := m.sin rot
    let mkSide : String → ℚ → ℚ → ℚ → ℚ → Obstacle := fun nm ww px pz wr =>
      { id := ⟨icx, icz, ipref ++ ":wall:" ++ nm⟩
        type := .wall
        position := ⟨x + (px * cosr - pz * sinr), y + h / 2, z + (px * sinr + pz * cosr)⟩
        rotation := rot + wr
        scale := ⟨1, 1, 1⟩
        radius := 1
        dims := some ⟨ww, 1, h⟩ }
    let doorGap : ℚ := 3
    let frontWallW := (width - doorGap) / 2
    let fOffset := depth / 2
    let flX := x + (-frontWallW / 2 - doorGap / 2) * cosr - fOffset * sinr
    let flZ := z + (-frontWallW / 2 - doorGap / 2) * sinr + fOffset * cosr
    let frX := x + (frontWallW / 2 + doorGap / 2) * cosr - fOffset * sinr
    let frZ := z + (frontWallW / 2 + doorGap / 2) * sinr + fOffset * cosr
    [mkSide "back" width 0 (-(depth / 2)) 0,
     mkSide "left" depth (-(width / 2)) 0 (m.pi / 2),
     mkSide "right" depth (width / 2) 0 (m.pi / 2)] ++
      [{ id := ⟨icx, icz, ipref ++ ":wall:fl"⟩, type := .wall
         position := ⟨flX, y + h / 2, flZ⟩, rotation := rot, scale := ⟨1, 1, 1⟩
         radius := 1, dims := some ⟨frontWallW, 1, h⟩ },
       { id := ⟨icx, icz, ipref ++ ":wall:fr"⟩, type := .wall
         position := ⟨frX, y + h / 2, frZ⟩, rotation := rot, scale := ⟨1, 1, 1⟩
         radius := 1, dims := some ⟨frontWallW, 1, h⟩ },
       { id := ⟨icx, icz, ipref ++ ":roof"⟩, type := .roof
         position := ⟨x, y + h, z⟩, rotation := rot
         scale := ⟨width + 1, 4, depth + 1⟩, radius := 0, dims := none }]

/-- `generateChunk(chunkX, chunkZ, worldSeed)` (final variant): settlement
roll, optional market/houses/well, then scattered trees, all drawn from the
chunk-seeded stream. -/
def generateChunk (m : JSMath) (chunkX chunkZ : ℤ) (worldSeed : ℚ) : List Obstacle :=
  let chunkSeed : ℤ := jsXor (jsXor (chunkX * 73856093) (chunkZ * 19349663)) ⌊worldSeed⌋
  let getRand : ℚ → ℚ := fun off => seededRandom m ((chunkSeed : ℚ) + off)
  let worldX : ℚ := (chunkX : ℚ) * CHUNK_SIZE
  let worldZ : ℚ := (chunkZ : ℚ) * CHUNK_SIZE
  let centerX := worldX + CHUNK_SIZE / 2
  let centerZ := worldZ + CHUNK_SIZE / 2
  let centerRoadInf := getRoadInfluence m centerX centerZ worldSeed
  let villageChance : ℚ := if centerRoadInf > 0 then 0.6 else 0.96
  let isVillage := getRand 999 > villageChance
  let villageObs : List Obstacle :=
    if isVillage then
      let cy := getTerrainHeight m centerX centerZ worldSeed
      let market :=
        if getRoadInfluence m centerX centerZ worldSeed = 0 then
          generateBuilding m .market centerX centerZ cy 0 chunkX chunkZ "market"
        else []
      let houseCount : ℕ := (3 + ⌊getRand 888 * 3⌋).toNat
      let houses := (List.range houseCount).flatMap fun (i : ℕ) =>
        let angle := (m.pi * 2 * (i : ℚ)) / (houseCount : ℚ) + getRand (i : ℚ) * 0.5
        let dist := 15 + getRand ((i : ℚ) + 50) * 10
        let hx := centerX + m.cos angle * dist
        let hz := centerZ + m.sin angle * dist
        if getRoadInfluence m hx hz worldSeed > 0 then []
        else
          let hy := getTerrainHeight m hx hz worldSeed
          let rot := m.atan2 (centerZ - hz) (centerX - hx)
          let bType : BuildingType := if getRand ((i : ℚ) * 99) > 0.7 then .tower else .cottage
          generateBuilding m bType hx hz hy rot chunkX chunkZ s!"b{i}"
      let well :=
        if getRand 50 > 0.5 then
          let wx := centerX + 5
          let wz := centerZ + 5
          [{ id := ⟨chunkX, chunkZ, "well"⟩, type := .well
             position := ⟨wx, getTerrainHeight m wx wz worldSeed, wz⟩
             rotation := 0, scale := ⟨1, 1, 1⟩, radius := 2, dims := none } ]
        else []
      market ++ houses ++ well
    else []
  let treeCount : ℕ := if isVillage then 2 else (⌊getRand 1 * 10⌋ + 2).toNat
  let trees := (List.range treeCount).flatMap fun (i : ℕ) =>
    let lx := getRand ((i : ℚ) * 10) * CHUNK_SIZE - CHUNK_SIZE / 2
    let lz := getRand ((i : ℚ) * 10 + 1) * CHUNK_SIZE - CHUNK_SIZE / 2
    let wx := worldX + lx + CHUNK_SIZE / 2
    let wz := worldZ + lz + CHUNK_SIZE / 2
    if getRoadInfluence m wx wz worldSeed > 0 then []
    else
      [{ id := ⟨chunkX, chunkZ, s!"tree:{i}"⟩, type := .tree
         position := ⟨wx, getTerrainHeight m wx wz worldSeed, wz⟩
         rotation := getRand ((i : ℚ) * 10 + 2) * m.pi
         scale := ⟨1 + getRand (i : ℚ) * 0.5, 1 + getRand ((i : ℚ) + 5), 1 + getRand (i : ℚ) * 0.5⟩
         radius := 1, dims := none }]
  villageObs ++ trees

/- ---------------------------------------------------------------- -/
/- Collision (final variant).                                        -/
/- ---------------------------------------------------------------- -/

/-- The per-obstacle body of the `checkCollision` loop: broad-phase
axis-aligned reject at 15 units, oriented-box test for `wall`s with `dims`,
circular test (only when `radius > 0`) otherwise. -/
def obsBlocks (m : JSMath) (position : Vec3) (radius : ℚ) (obs : Obstacle) : Bool :=
  let dx := position.x - obs.position.x
  let dz := position.z - obs.position.z
  let circ : Bool :=
    decide (obs.radius > 0 ∧ dx * dx + dz * dz < (obs.radius + radius) * (obs.radius + radius))
  if |dx| > 15 ∨ |dz| > 15 then false
  else if obs.type = ObstacleType.wall then
    -- `obs.type === 'wall' && obs.dims`: a wall without `dims` falls back
    -- to the circular branch (JS truthiness of `undefined`).
    match obs.dims with
    | some dm =>
      let c := m.cos (-obs.rotation)
      let s := m.sin (-obs.rotation)
      let localX := dx * c - dz * s
      let localZ := dx * s + dz * c
      let halfW := dm.w / 2 + radius
      let halfD := dm.d / 2 + radius
      decide (|localX| < halfW ∧ |localZ| < halfD)
    | none => circ
  else circ

/-- `checkCollision(position, obstacles, radius)`: `true` as soon as one
obstacle blocks (the source's early-`return` loop is `List.any`). -/
def checkCollision (m : JSMath) (position : Vec3) (obstacles : List Obstacle) (radius : ℚ) : Bool :=
  obstacles.any (obsBlocks m position radius)

/- ---------------------------------------------------------------- -/
/- Enemies, player state, hitscan combat (final variant).            -/
/- ---------------------------------------------------------------- -/

inductive EnemyType
  | peasant | knight | heavy | villager
deriving DecidableEq, Repr

structure EnemyCfg where
  hp : ℚ
  speed : ℚ
  score : ℚ
  gold : ℚ
  scale : ℚ
deriving DecidableEq, Repr

/-- `ENEMY_CONFIG` (final variant, including the `gold` reward column). -/
def ENEMY_CONFIG : EnemyType → EnemyCfg
  | .peasant => ⟨40, 7, 50, 10, 0.8⟩
  | .knight => ⟨100, 4, 100, 25, 1⟩
  | .heavy => ⟨300, 2.5, 300, 100, 1.4⟩
  | .villager => ⟨30, 5, -100, 0, 0.8⟩

/-- The final variant's `Enemy` interface (`deadTime`/`velocity` are the
optional fields). -/
structure Enemy where
  id : String
  type : EnemyType
  position : Vec3
  hp : ℚ
  maxHp : ℚ
  speed : ℚ
  isAttacking : Bool
  isDead : Bool
  deadTime : Option ℚ
  velocity : Option Vec3
deriving DecidableEq, Repr

/-- The final variant's `GameState`. -/
structure GState where
  score : ℚ
  gold : ℚ
  health : ℚ
  wave : ℚ
  isPlaying : Bool
  ammo : ℤ
  damageMultiplier : ℚ
deriving DecidableEq, Repr

def MAX_AMMO : ℤ := 30

def FIRE_RATE : ℚ := 100

/-- Audio cues emitted to the external `SoundManager` (fire-and-forget). -/
inductive Cue
  | shoot | reloadCue | empty | buy | hit
deriving DecidableEq, Repr

/-- The hitscan's per-enemy target point: feet at generation-consistent
terrain height, raised by `0.9 * scale` (the approximate torso). -/
def torso (m : JSMath) (seed : ℚ) (e : Enemy) : Vec3 :=
  ⟨e.position.x,
   getTerrainHeight m e.position.x e.position.z seed + 0.9 * (ENEMY_CONFIG e.type).scale,
   e.position.z⟩

/-- `THREE.Ray.distanceSqToPoint` for a ray with origin `o` and direction
`d`: if the point projects behind the origin, the squared distance to the
origin, else the squared distance to the projection onto the ray. -/
def rayDistSq (o d p : Vec3) : ℚ :=
  let dd := Vec3.dot (p - o) d
  if dd < 0 then (p - o).lengthSq else (p - (o + dd • d)).lengthSq

/-- Squared camera distance of an enemy's torso point (the source compares
`camera.position.distanceTo(ePos)` values; squaring both sides of each
comparison is exact). -/
def camDistSq (m : JSMath) (seed : ℚ) (cam : Vec3) (e : Enemy) : ℚ :=
  (torso m seed e - cam).lengthSq

/-- One step of the hit-candidate scan (the first `map` over `prev` in the
shooting logic).  The accumulator carries (squared `minDist`, `hitId`);
`minDist` starts at `100` (squared: `10000`), the ray's far clip. -/
def scanStep (m : JSMath) (seed : ℚ) (cam d : Vec3) (acc : ℚ × Option String) (e : Enemy) :
    ℚ × Option String :=
  if e.isDead then acc
  else
    let hitboxSize := 2 * (ENEMY_CONFIG e.type).scale
    if rayDistSq cam d (torso m seed e) < hitboxSize * hitboxSize then
      let dc := camDistSq m seed cam e
      if dc < acc.1 then (dc, some e.id) else acc
    else acc

/-- The full candidate scan over the live enemy list. -/
def scanEnemies (m : JSMath) (seed : ℚ) (cam d : Vec3) (es : List Enemy) : ℚ × Option String :=
  es.foldl (scanStep m seed cam d) (10000, none)

/-- Damage application to the struck enemy (the second `map`): subtract the
damage; at `hp ≤ 0` clamp to `0`, mark dead, stamp `deadTime` and assign
the ragdoll launch velocity from the shot direction. -/
def applyHit (m : JSMath) (d : Vec3) (time dmg : ℚ) (e : Enemy) : Enemy :=
  let newHp := e.hp - dmg
  if newHp ≤ 0 then
    { e with hp := 0, isDead := true, deadTime := some time,
             velocity := some ((8 : ℚ) • vnormalize m d + (⟨0, 4, 0⟩ : Vec3)) }
  else { e with hp := newHp }

/-- The second `map` over the enemy list: only the enemy whose id equals
`hitId` is touched. -/
def hitPass (m : JSMath) (d : Vec3) (time dmg : ℚ) (hid : Option String) (es : List Enemy) :
    List Enemy :=
  es.map fun e => if some e.id = hid then applyHit m d time dmg e else e

/-- Kill reward: if the struck enemy was alive before and has `hp = 0`
after, add its configured score and gold to the player. -/
def applyReward (hid : Option String) (prev next : List Enemy) (g : GState) : GState :=
  match hid with
  | none => g
  | some i =>
    match prev.find? (fun e => decide (e.id = i)) with
    | none => g
    | some hitEnemy =>
      if hitEnemy.hp > 0 ∧ (next.find? (fun e => decide (e.id = i))).map Enemy.hp = some 0 then
        let cfg := ENEMY_CONFIG hitEnemy.type
        { g with score := g.score + cfg.score, gold := g.gold + cfg.gold }
      else g

/-- The body of the `ammo > 0` branch of the shooting logic: decrement
ammo, cue `shoot`, run the candidate scan, apply damage to the selected
enemy, cue `hit` and apply the kill reward when someone was struck. -/
def shootHit (m : JSMath) (seed : ℚ) (cam d : Vec3) (time : ℚ) (g : GState) (es : List Enemy) :
    GState × List Enemy × List Cue :=
  let g1 := { g with ammo := g.ammo - 1 }
  let hid := (scanEnemies m seed cam d es).2
  let dmg := 35 * g.damageMultiplier
  let es2 := hitPass m d time dmg hid es
  let g2 := applyReward hid es es2 g1
  (g2, es2, [Cue.shoot] ++ if hid.isSome then [Cue.hit] else [])

/-- The final variant's `reload`: refill to `MAX_AMMO` immediately when not
already full (there is no delay and no reloading flag in this variant). -/
def reload (g : GState) : GState × List Cue :=
  if g.ammo < MAX_AMMO then ({ g with ammo := MAX_AMMO }, [Cue.reloadCue]) else (g, [])

/-- Combined simulation state threaded through the per-frame logic. -/
structure Sim where
  gs : GState
  enemies : List Enemy
  lastShot : ℚ
deriving DecidableEq, Repr

/-- A fire-input frame: rate-limited; with ammo the shot fires (hitscan),
without ammo the empty cue plays and `reload` is triggered. -/
def fireFrame (m : JSMath) (seed : ℚ) (cam d : Vec3) (mouseDown : Bool) (time : ℚ) (s : Sim) :
    Sim × List Cue :=
  if mouseDown = true ∧ time - s.lastShot > FIRE_RATE then
    if s.gs.ammo > 0 then
      let r := shootHit m seed cam d time s.gs s.enemies
      ({ gs := r.1, enemies := r.2.1, lastShot := time }, r.2.2)
    else
      let r := if s.gs.ammo = 0 then reload s.gs else (s.gs, [])
      ({ s with gs := r.1 }, [Cue.empty] ++ r.2)
  else (s, [])

/- ---------------------------------------------------------------- -/
/- Enemy AI frame and spawning (final variant).                      -/
/- ---------------------------------------------------------------- -/

/-- Squared planar distance between the player's and an enemy's ground
positions (`pPos.distanceTo(ePos)` on the `y = 0` projections, squared). -/
def planarDistSq (cam : Vec3) (e : Enemy) : ℚ :=
  (cam.x - e.position.x) * (cam.x - e.position.x) +
    (cam.z - e.position.z) * (cam.z - e.position.z)

/-- Per-enemy AI update, returning the updated enemy and its per-frame
damage contribution (`0.2` while attacking).  Distance comparisons
(`> 50`, `< 15`, `< 1.5`) are squared (`> 2500`, `< 225`, `< 2.25`). -/
def aiMoveEnemy (m : JSMath) (seed : ℚ) (obstacles : List Obstacle) (cam : Vec3) (delta : ℚ)
    (e : Enemy) : Enemy × ℚ :=
  if e.isDead then (e, 0)
  else
    let pP : Vec3 := ⟨cam.x, 0, cam.z⟩
    let eP : Vec3 := ⟨e.position.x, 0, e.position.z⟩
    let dSq := (pP - eP).lengthSq
    if dSq > 2500 then (e, 0)
    else if e.type = .villager then
      let eP2 := if dSq < 225 then eP + (e.speed * delta) • vnormalize m (eP - pP) else eP
      let ny := getTerrainHeight m eP2.x eP2.z seed
      ({ e with position := ⟨eP2.x, ny, eP2.z⟩ }, 0)
    else if dSq < 2.25 then
      let ny := getTerrainHeight m eP.x eP.z seed
      ({ e with isAttacking := true, position := ⟨eP.x, ny, eP.z⟩ }, 0.2)
    else
      let dir := vnormalize m (pP - eP)
      let nextPos := eP + (e.speed * delta) • dir
      let eP2 :=
        if checkCollision m nextPos obstacles 0.2 = false then nextPos
        else
          let sideStep := nextPos + (⟨1, 0, 0⟩ : Vec3)
          if checkCollision m sideStep obstacles 0.2 = false then sideStep else eP
      let ny := getTerrainHeight m eP2.x eP2.z seed
      ({ e with isAttacking := false, position := ⟨eP2.x, ny, eP2.z⟩ }, 0)

/-- The per-frame enemy update (`setEnemies` at the end of `useFrame`):
map the AI update over the list, despawn corpses 3000 ms after death,
apply the summed contact damage to the player's health (clamped at 0,
ending the game at exactly 0). -/
def aiFrame (m : JSMath) (seed : ℚ) (obstacles : List Obstacle) (cam : Vec3) (delta time : ℚ)
    (s : Sim) : Sim :=
  let results := s.enemies.map (aiMoveEnemy m seed obstacles cam delta)
  let next := (results.map Prod.fst).filter fun e =>
    !e.isDead || decide (time - (e.deadTime.getD 0) < 3000)
  let damageDealt := (results.map Prod.snd).sum
  let g' :=
    if damageDealt > 0 then
      let nh := max 0 (s.gs.health - damageDealt)
      if nh = 0 ∧ s.gs.isPlaying = true then { s.gs with health := 0, isPlaying := false }
      else { s.gs with health := nh }
    else s.gs
  { s with enemies := next, gs := g' }

/-- Spawn-type roll (final variant's distribution). -/
def spawnType (rand : ℚ) : EnemyType :=
  if rand < 0.2 then .villager
  else if rand > 0.8 then .heavy
  else if rand < 0.4 then .peasant
  else .knight

/-- A spawn tick: place a fresh enemy on a ring around the player at
terrain height.  The runtime random draws (`angle`, `dist`, the type roll
`rand`, and the id token) are inputs of the event. -/
def spawnFrame (m : JSMath) (seed : ℚ) (cam : Vec3) (angle dist rand : ℚ) (eid : String)
    (s : Sim) : Sim :=
  let ex := cam.x + m.cos angle * dist
  let ez := cam.z + m.sin angle * dist
  let ey := getTerrainHeight m ex ez seed
  let ty := spawnType rand
  let cfg := ENEMY_CONFIG ty
  { s with enemies := s.enemies ++
      [{ id := eid, type := ty, position := ⟨ex, ey, ez⟩, hp := cfg.hp, maxHp := cfg.hp,
         speed := cfg.speed, isAttacking := false, isDead := false, deadTime := none,
         velocity := none }] }

/-- Shop purchases (`handleShopAction`, message selection externalised). -/
inductive BuyKind
  | ammoB | healthB | upgradeB
deriving DecidableEq, Repr

def buyAction (k : BuyKind) (g : GState) : GState × List Cue :=
  match k with
  | .ammoB =>
    if g.gold ≥ 50 then ({ g with gold := g.gold - 50, ammo := MAX_AMMO }, [Cue.buy])
    else (g, [Cue.empty])
  | .healthB =>
    if g.gold ≥ 100 then ({ g with gold := g.gold - 100, health := 100 }, [Cue.buy])
    else (g, [Cue.empty])
  | .upgradeB =>
    if g.gold ≥ 500 then
      ({ g with gold := g.gold - 500, damageMultiplier := g.damageMultiplier + 0.5 }, [Cue.buy])
    else (g, [Cue.empty])

/-- The simulation/combat events of a session (each is one of the code
paths that mutates the player state or the enemy list). -/
inductive Ev
  | fire (cam d : Vec3) (mouseDown : Bool) (time : ℚ)
  | ai (cam : Vec3) (delta time : ℚ)
  | spawn (cam : Vec3) (angle dist rand : ℚ) (eid : String)
  | reloadKey
  | buy (k : BuyKind)

/-- One event step (cues discarded). -/
def stepEv (m : JSMath) (seed : ℚ) (obstacles : List Obstacle) : Ev → Sim → Sim
  | .fire cam d mouseDown time, s => (fireFrame m seed cam d mouseDown time s).1
  | .ai cam delta time, s => aiFrame m seed obstacles cam delta time s
  | .spawn cam angle dist rand eid, s => spawnFrame m seed cam angle dist rand eid s
  | .reloadKey, s => { s with gs := (reload s.gs).1 }
  | .buy k, s => { s with gs := (buyAction k s.gs).1 }

/-- Run a sequence of events. -/
def runEv (m : JSMath) (seed : ℚ) (obstacles : List Obstacle) (evs : List Ev) (s : Sim) : Sim :=
  evs.foldl (fun s ev => stepEv m seed obstacles ev s) s

/-- Initial state on `startGame`. -/
def simInit : Sim :=
  { gs := { score := 0, gold := 0, health := 100, wave := 1, isPlaying := true,
            ammo := MAX_AMMO, damageMultiplier := 1 },
    enemies := [], lastShot := 0 }

/- ---------------------------------------------------------------- -/
/- Chunk streaming (final variant's WorldGen: load only, no evict).  -/
/- ---------------------------------------------------------------- -/

/-- Integer interval `[a, b]` as a list. -/
def rangeInt (a b : ℤ) : List ℤ := (List.range (b - a + 1).toNat).map fun (i : ℕ) => a + (i : ℤ)

/-- The chunk keys visited by the double loop
`for x in [cx-r, cx+r], for z in [cz-r, cz+r]` (outer `x`, inner `z`),
mirroring the `Set<string>` keys `"{x}:{z}"` as coordinate pairs. -/
def chunkKeys (c : ℤ × ℤ) (r : ℤ) : List (ℤ × ℤ) :=
  (rangeInt (c.1 - r) (c.1 + r)).flatMap fun x =>
    (rangeInt (c.2 - r) (c.2 + r)).map fun z => (x, z)

/-- The final variant's `WorldGen` state: `loadedChunksRef` and the live
obstacle list. -/
structure WGState where
  loaded : Finset (ℤ × ℤ)
  obstacles : List Obstacle
deriving DecidableEq

def wgInit : WGState := ⟨∅, []⟩

/-- One `WorldGen` frame of the final variant: compute the player's chunk,
generate every not-yet-loaded chunk within `RENDER_DISTANCE`, append its
obstacles.  Nothing is ever removed. -/
def wgUpdate (m : JSMath) (seed : ℚ) (px pz : ℚ) (s : WGState) : WGState :=
  let c : ℤ × ℤ := (⌊px / CHUNK_SIZE⌋, ⌊pz / CHUNK_SIZE⌋)
  let r := (chunkKeys c RENDER_DISTANCE).foldl
    (fun (acc : Finset (ℤ × ℤ) × List Obstacle) k =>
      if k ∈ acc.1 then acc
      else (insert k acc.1, acc.2 ++ generateChunk m k.1 k.2 seed))
    (s.loaded, [])
  { loaded := r.1, obstacles := s.obstacles ++ r.2 }

/- ---------------------------------------------------------------- -/
/- The earlier variant (part_001): terrain, generator, streaming     -/
/- with eviction, and the delayed reload.                            -/
/- ---------------------------------------------------------------- -/

namespace V1

/-- `noise(x, z)` (earlier variant, no seed argument). -/
def noise (m : JSMath) (x z : ℚ) : ℚ :=
  jsFract (m.sin (x * 12.9898 + z * 78.233) * 43758.5453123)

/-- `smoothNoise` (earlier variant). -/
def smoothNoise (m : JSMath) (x z : ℚ) : ℚ :=
  let i : ℤ := ⌊x⌋
  let j : ℤ := ⌊z⌋
  let f := x - (i : ℚ)
  let g := z - (j : ℚ)
  let a := noise m (i : ℚ) (j : ℚ)
  let b := noise m ((i : ℚ) + 1) (j : ℚ)
  let c := noise m (i : ℚ) ((j : ℚ) + 1)
  let d := noise m ((i : ℚ) + 1) ((j : ℚ) + 1)
  let u := f * f * f * (f * (f * 6 - 15) + 10)
  let v := g * g * g * (g * (g * 6 - 15) + 10)
  (1 - u) * (1 - v) * a + u * (1 - v) * b + (1 - u) * v * c + u * v * d

/-- `getTerrainHeight` (earlier variant: three octaves, `Math.pow(y, 1.2)`,
no roads). -/
def getTerrainHeight (m : JSMath) (x z : ℚ) : ℚ :=
  let amp : ℚ := 10
  let freq : ℚ := 0.02
  let y := smoothNoise m (x * freq) (z * freq) * amp
    + smoothNoise m (x * freq * 2) (z * freq * 2) * (amp / 2)
    + smoothNoise m (x * freq * 4) (z * freq * 4) * (amp / 4)
  m.pow y 1.2

/-- `generateChunk(chunkX, chunkZ)` (earlier variant): optional village of
houses, trees (skipped within 4 units of a house — the source compares
`Math.sqrt(dx²+dz²) < 4`, represented by the squared comparison `< 16`),
then rocks (always at least two) and an occasional ruin. -/
def generateChunk (m : JSMath) (chunkX chunkZ : ℤ) : List Obstacle :=
  let chunkSeed : ℤ := jsXor (chunkX * 73856093) (chunkZ * 19349663)
  let getRand : ℚ → ℚ := fun off => seededRandom m ((chunkSeed : ℚ) + off)
  let worldX : ℚ := (chunkX : ℚ) * CHUNK_SIZE
  let worldZ : ℚ := (chunkZ : ℚ) * CHUNK_SIZE
  let isVillage := getRand 999 > 0.95
  let houses : List Obstacle :=
    if isVillage then
      let houseCount : ℕ := (4 + ⌊getRand 888 * 4⌋).toNat
      (List.range houseCount).map fun (i : ℕ) =>
        let lx := (getRand ((i : ℚ) * 30) - 0.5) * (CHUNK_SIZE * 0.6)
        let lz := (getRand ((i : ℚ) * 30 + 1) - 0.5) * (CHUNK_SIZE * 0.6)
        let wx := worldX + lx
        let wz := worldZ + lz
        { id := ⟨chunkX, chunkZ, s!"house:{i}"⟩, type := .house
          position := ⟨wx, getTerrainHeight m wx wz, wz⟩
          rotation := getRand ((i : ℚ) * 30 + 2) * m.pi * 2
          scale := ⟨1, 1, 1⟩, radius := 2.5, dims := none }
    else []
  let treeCount : ℕ := if isVillage then 2 else (⌊getRand 1 * 10⌋ + 2).toNat
  let afterTrees : List Obstacle := (List.range treeCount).foldl
    (fun acc (i : ℕ) =>
      let lx := getRand ((i : ℚ) * 10) * CHUNK_SIZE - CHUNK_SIZE / 2
      let lz := getRand ((i : ℚ) * 10 + 1) * CHUNK_SIZE - CHUNK_SIZE / 2
      let wx := worldX + lx
      let wz := worldZ + lz
      let tooClose := isVillage && acc.any fun o =>
        o.type == ObstacleType.house &&
          decide ((wx - o.position.x) * (wx - o.position.x) +
            (wz - o.position.z) * (wz - o.position.z) < 16)
      if tooClose then acc
      else acc ++
        [{ id := ⟨chunkX, chunkZ, s!"tree:{i}"⟩, type := .tree
           position := ⟨wx, getTerrainHeight m wx wz, wz⟩
           rotation := getRand ((i : ℚ) * 10 + 2) * m.pi
           scale := ⟨1 + getRand (i : ℚ) * 0.5, 1 + getRand ((i : ℚ) + 5), 1 + getRand (i : ℚ) * 0.5⟩
           radius := 1, dims := none }])
    houses
  let rockCount : ℕ := (⌊getRand 2 * 5⌋ + 2).toNat
  let rocks : List Obstacle := (List.range rockCount).map fun (i : ℕ) =>
    let lx := getRand ((i : ℚ) * 20 + 50) * CHUNK_SIZE - CHUNK_SIZE / 2
    let lz := getRand ((i : ℚ) * 20 + 51) * CHUNK_SIZE - CHUNK_SIZE / 2
    let wx := worldX + lx
    let wz := worldZ + lz
    { id := ⟨chunkX, chunkZ, s!"rock:{i}"⟩, type := .rock
      position := ⟨wx, getTerrainHeight m wx wz, wz⟩
      rotation := getRand ((i : ℚ) * 20 + 52) * m.pi
      scale := ⟨1, 1, 1⟩, radius := 1.5, dims := none }
  let ruins : List Obstacle :=
    if !isVillage && decide (getRand 100 > 0.85) then
      let lx := getRand 101 * CHUNK_SIZE - CHUNK_SIZE / 2
      let lz := getRand 102 * CHUNK_SIZE - CHUNK_SIZE / 2
      let wx := worldX + lx
      let wz := worldZ + lz
      [{ id := ⟨chunkX, chunkZ, "ruin"⟩, type := .ruin
         position := ⟨wx, getTerrainHeight m wx wz, wz⟩
         rotation := getRand 103 * m.pi
         scale := ⟨1 + getRand 104, 1 + getRand 105, 1 + getRand 104⟩
         radius := 3.5, dims := none }]
    else []
  afterTrees ++ rocks ++ ruins

/-- The earlier variant's `WorldGenerator` state (`loadedChunks`,
`lastChunk` and the live obstacle list it controls through
`setObstacles`). -/
structure WGState where
  obstacles : List Obstacle
  loaded : Finset (ℤ × ℤ)
  lastChunk : Option (ℤ × ℤ)
deriving DecidableEq

def wgInit : WGState := ⟨[], ∅, none⟩

/-- One `WorldGenerator` frame: on a chunk-boundary crossing, generate the
missing chunks within `RENDER_DISTANCE` (marking them loaded as the loop
goes), and — only when something new was generated — filter the obstacle
list to Chebyshev radius `RENDER_DISTANCE + 1` of the current chunk by the
id-embedded chunk coordinate, rebuild `loadedChunks` from the survivors
plus the active keys, and append the new obstacles.  `lastChunk` is
updated on every crossing, before the gate. -/
def wgUpdate (m : JSMath) (px pz : ℚ) (s : WGState) : WGState :=
  let c : ℤ × ℤ := (⌊px / CHUNK_SIZE⌋, ⌊pz / CHUNK_SIZE⌋)
  if s.lastChunk = some c then s
  else
    let keys := chunkKeys c RENDER_DISTANCE
    let r := keys.foldl
      (fun (acc : Finset (ℤ × ℤ) × List Obstacle) k =>
        if k ∈ acc.1 then acc
        else (insert k acc.1, acc.2 ++ generateChunk m k.1 k.2))
      (s.loaded, [])
    if r.2 = [] then { obstacles := s.obstacles, loaded := r.1, lastChunk := some c }
    else
      let filtered := s.obstacles.filter fun o =>
        decide (|o.id.cx - c.1| ≤ RENDER_DISTANCE + 1) &&
          decide (|o.id.cz - c.2| ≤ RENDER_DISTANCE + 1)
      let currentLoaded := (filtered.map fun o => (o.id.cx, o.id.cz)).toFinset ∪ keys.toFinset
      { obstacles := filtered ++ r.2, loaded := currentLoaded, lastChunk := some c }

/-- Run the streaming update over a sequence of player positions. -/
def wgRun (m : JSMath) (moves : List (ℚ × ℚ)) (s : WGState) : WGState :=
  moves.foldl (fun s mv => wgUpdate m mv.1 mv.2 s) s

/-- The earlier variant's ammunition / reload state (`ammoRef`,
`isReloading`, the `setTimeout` completion deadline, `lastShotTime`). -/
structure AmmoSt where
  ammo : ℤ
  reloading : Bool
  reloadDone : ℚ
  lastShot : ℚ
deriving DecidableEq, Repr

def RELOAD_DELAY : ℚ := 1500

/-- `reload()` (earlier variant): set the reloading flag and schedule the
refill `RELOAD_DELAY` ms later; the ammo count itself is untouched. -/
def reload (t : ℚ) (s : AmmoSt) : AmmoSt :=
  { s with reloading := true, reloadDone := t + RELOAD_DELAY }

/-- The scheduled `setTimeout` body: refill to `MAX_AMMO`, clear the
flag. -/
def reloadComplete (s : AmmoSt) : AmmoSt :=
  { s with ammo := MAX_AMMO, reloading := false }

/-- The earlier variant's per-frame shooting gate
(`isMouseDown && !isReloading && time - lastShotTime > FIRE_RATE`):
returns the updated state and whether a shot was actually fired (hitscan
performed). -/
def fireFrame (t : ℚ) (mouseDown : Bool) (s : AmmoSt) : AmmoSt × Bool :=
  if mouseDown = true ∧ s.reloading = false ∧ t - s.lastShot > FIRE_RATE then
    if s.ammo > 0 then ({ s with ammo := s.ammo - 1, lastShot := t }, true)
    else if s.ammo = 0 then (reload t s, false)
    else (s, false)
  else (s, false)

end V1

/- ---------------------------------------------------------------- -/
/- Claim-level predicates and concrete evaluation inputs.            -/
/- ---------------------------------------------------------------- -/

/-- The claim's hit qualification for a shot: live, and squared
point-to-ray distance of the torso point below the squared
scale-dependent hit radius. -/
def qualifies (m : JSMath) (seed : ℚ) (cam d : Vec3) (e : Enemy) : Prop :=
  e.isDead = false ∧
    rayDistSq cam d (torso m seed e) <
      (2 * (ENEMY_CONFIG e.type).scale) * (2 * (ENEMY_CONFIG e.type).scale)

/-- Qualification together with the camera-distance cap: the scan's
`minDist` starts at `100` (the ray's far clip), so only candidates with
camera distance below `100` (squared: `10000`) can ever be selected. -/
def qualifiesCap (m : JSMath) (seed : ℚ) (cam d : Vec3) (e : Enemy) : Prop :=
  qualifies m seed cam d e ∧ camDistSq m seed cam e < 10000

/-- hp within `[0, maxHp]` for every enemy of a list. -/
def HpInv (es : List Enemy) : Prop := ∀ e ∈ es, 0 ≤ e.hp ∧ e.hp ≤ e.maxHp

/-- The id tokens of a live enemy list. -/
def idsOf (es : List Enemy) : List String := es.map Enemy.id

/-- A spawn event's random id token does not collide with a live id (the
data model stipulates ids are unique per spawn). -/
def evFresh : Ev → Sim → Prop
  | .spawn _ _ _ _ eid, s => eid ∉ idsOf s.enemies
  | _, _ => True

/-- Chunk coordinates embedded in the ids of an obstacle list. -/
def coordsSet (O : List Obstacle) : Finset (ℤ × ℤ) :=
  (O.map fun o => (o.id.cx, o.id.cz)).toFinset

/-- Chebyshev distance between chunk coordinates. -/
def chebDist (a b : ℤ × ℤ) : ℤ := max |a.1 - b.1| |a.2 - b.2|

/- Concrete inputs for witnesses and counterexamples. -/

def cam0 : Vec3 := ⟨0, 0, 0⟩

def dir0 : Vec3 := ⟨0, 0, -1⟩

/-- A live villager sitting on the ray but 150 units from the camera. -/
def eFar : Enemy :=
  { id := "far", type := .villager, position := ⟨0, 0, -150⟩, hp := 30, maxHp := 30,
    speed := 5, isAttacking := false, isDead := false, deadTime := none, velocity := none }

/-- A live villager on the ray 10 units from the camera. -/
def eNear : Enemy :=
  { id := "near", type := .villager, position := ⟨0, 0, -10⟩, hp := 30, maxHp := 30,
    speed := 5, isAttacking := false, isDead := false, deadTime := none, velocity := none }

/-- A dead peasant (ragdoll state). -/
def eDead : Enemy :=
  { id := "dead", type := .peasant, position := ⟨3, 0, 3⟩, hp := 0, maxHp := 40,
    speed := 7, isAttacking := false, isDead := true, deadTime := some 0, velocity := none }

/-- A live knight standing 1 unit from the player (inside attack range). -/
def eKnight : Enemy :=
  { id := "kn", type := .knight, position := ⟨1, 0, 0⟩, hp := 100, maxHp := 100,
    speed := 4, isAttacking := false, isDead := false, deadTime := none, velocity := none }

/-- A simulation state holding one dead enemy. -/
def sDead : Sim := { gs := simInit.gs, enemies := [eDead], lastShot := 0 }

/-- A game state with an empty magazine. -/
def gEmpty : GState := { simInit.gs with ammo := 0 }

/-- The number of simultaneous attackers this frame: live non-civilian
actors within the 1.5-unit attack range (squared: `2.25`). -/
def attackers (cam : Vec3) (es : List Enemy) : ℕ :=
  es.countP fun e =>
    !e.isDead && !(e.type == EnemyType.villager) && decide (planarDistSq cam e < 2.25)

/-- The streaming invariant of the earlier variant's `WorldGenerator`,
relative to the current chunk `c`:
(a) `loadedChunks` equals exactly the chunk coordinates embedded in the
live obstacles' ids; (b) every chunk within `RENDER_DISTANCE` of `c` has
an obstacle; (e) all live obstacles' embedded coordinates fit, on each
axis, within a window of six consecutive values. -/
def wgInv (s : V1.WGState) (c : ℤ × ℤ) : Prop :=
  s.loaded = coordsSet s.obstacles ∧
    (∀ k : ℤ × ℤ, |k.1 - c.1| ≤ RENDER_DISTANCE → |k.2 - c.2| ≤ RENDER_DISTANCE →
      k ∈ coordsSet s.obstacles) ∧
    ∀ o1 ∈ s.obstacles, ∀ o2 ∈ s.obstacles,
      |o1.id.cx - o2.id.cx| ≤ 5 ∧ |o1.id.cz - o2.id.cz| ≤ 5

/-- The states the earlier variant's streaming loop can reach from a fresh
world: either nothing has been generated yet, or the invariant `wgInv`
holds for the chunk recorded by the last crossing. -/
def wgReach (s : V1.WGState) : Prop :=
  (s.obstacles = [] ∧ s.loaded = ∅ ∧ s.lastChunk = none) ∨
    ∃ c, s.lastChunk = some c ∧ wgInv s c

/-- The first tree the final variant's generator places in chunk `(0, 0)`
under world seed `123` with the all-zero math interpretation. -/
def oTree : Obstacle :=
  { id := ⟨0, 0, "tree:0"⟩, type := .tree, position := ⟨0, 0, 0⟩, rotation := 0,
    scale := ⟨1, 1, 1⟩, radius := 1, dims := none }

/- ---------------------------------------------------------------- -/
/- Helper lemmas.                                                    -/
/- ---------------------------------------------------------------- -/

theorem Vec3.add_def (a b : Vec3) :
    a + b = ⟨a.x + b.x, a.y + b.y, a.z + b.z⟩ := rfl

theorem Vec3.sub_def (a b : Vec3) :
    a - b = ⟨a.x - b.x, a.y - b.y, a.z - b.z⟩ := rfl

theorem Vec3.smul_def (c : ℚ) (v : Vec3) :
    c • v = ⟨c * v.x, c * v.y, c * v.z⟩ := rfl

theorem jsFract_nonneg (x : ℚ) : 0 ≤ jsFract x := by
  have := Int.floor_le x
  simp only [jsFract]
  linarith

theorem jsFract_lt_one (x : ℚ) : jsFract x < 1 := by
  have := Int.lt_floor_add_one x
  simp only [jsFract]
  linarith

theorem seededRandom_nonneg (m : JSMath) (s : ℚ) : 0 ≤ seededRandom m s :=
  jsFract_nonneg _

theorem seededRandom_lt_one (m : JSMath) (s : ℚ) : seededRandom m s < 1 :=
  jsFract_lt_one _

/-- Characterisation of the per-obstacle collision test. -/
theorem obsBlocks_iff (m : JSMath) (p : Vec3) (r : ℚ) (o : Obstacle) :
    obsBlocks m p r o = true ↔
      (|p.x - o.position.x| ≤ 15 ∧ |p.z - o.position.z| ≤ 15) ∧
        ((∃ dm, o.dims = some dm ∧ o.type = ObstacleType.wall ∧
            |(p.x - o.position.x) * m.cos (-o.rotation) -
                (p.z - o.position.z) * m.sin (-o.rotation)| < dm.w / 2 + r ∧
            |(p.x - o.position.x) * m.sin (-o.rotation) +
                (p.z - o.position.z) * m.cos (-o.rotation)| < dm.d / 2 + r) ∨
          (¬(o.type = ObstacleType.wall ∧ o.dims.isSome = true) ∧ 0 < o.radius ∧
            (p.x - o.position.x) * (p.x - o.position.x) +
                (p.z - o.position.z) * (p.z - o.position.z) <
              (o.radius + r) * (o.radius + r))) := by
  obtain ⟨oid, ty, pos, rot, sc, rad, dims⟩ := o
  simp only [obsBlocks]
  by_cases hb : |p.x - pos.x| > 15 ∨ |p.z - pos.z| > 15
  · rw [if_pos hb]
    constructor
    · intro h
      exact (Bool.false_ne_true h).elim
    · rintro ⟨⟨h1, h2⟩, -⟩
      rcases hb with h | h
      · exact absurd h1 (not_le.mpr h)
      · exact absurd h2 (not_le.mpr h)
  · rw [if_neg hb]
    push_neg at hb
    by_cases hw : ty = ObstacleType.wall
    · rw [if_pos hw]
      rcases dims with _ | dm
      · simp only [decide_eq_true_eq]
        constructor
        · rintro ⟨hr, hc⟩
          refine ⟨⟨hb.1, hb.2⟩, Or.inr ⟨?_, hr, hc⟩⟩
          rintro ⟨-, hs⟩
          simp at hs
        · rintro ⟨-, (⟨dm2, hdm2, -⟩ | ⟨-, hr, hc⟩)⟩
          · cases hdm2
          · exact ⟨hr, hc⟩
      · simp only [decide_eq_true_eq]
        constructor
        · rintro ⟨h1, h2⟩
          exact ⟨⟨hb.1, hb.2⟩, Or.inl ⟨dm, rfl, hw, h1, h2⟩⟩
        · rintro ⟨-, (⟨dm2, hdm2, -, h1, h2⟩ | ⟨hno, -, -⟩)⟩
          · obtain rfl : dm = dm2 := by injection hdm2
            exact ⟨h1, h2⟩
          · exact absurd ⟨hw, rfl⟩ hno
    · rw [if_neg hw]
      simp only [decide_eq_true_eq]
      constructor
      · rintro ⟨hr, hc⟩
        exact ⟨⟨hb.1, hb.2⟩, Or.inr ⟨fun hc2 => hw hc2.1, hr, hc⟩⟩
      · rintro ⟨-, (⟨dm2, -, hty, -⟩ | ⟨-, hr, hc⟩)⟩
        · exact absurd hty hw
        · exact ⟨hr, hc⟩

/-- A non-`wall` obstacle with zero radius can never block. -/
theorem obsBlocks_nonwall_zero (m : JSMath) (p : Vec3) (r : ℚ) (o : Obstacle)
    (hty : o.type ≠ ObstacleType.wall) (hrad : o.radius = 0) :
    obsBlocks m p r o = false := by
  rcases h : obsBlocks m p r o with _ | _
  · rfl
  · rcases (obsBlocks_iff m p r o).mp h with ⟨-, (⟨-, -, hw, -⟩ | ⟨-, hpos, -⟩)⟩
    · exact absurd hw hty
    · rw [hrad] at hpos
      exact absurd hpos (lt_irrefl 0)

/-- `checkCollision` is the disjunction of the per-obstacle tests. -/
theorem checkCollision_eq_any (m : JSMath) (p : Vec3) (obs : List Obstacle) (r : ℚ) :
    checkCollision m p obs r = true ↔ ∃ o ∈ obs, obsBlocks m p r o = true := by
  simp [checkCollision, List.any_eq_true]

/-- Claim C1: chunk generation is deterministic.  The embedding renders
`generateChunk` as a pure function of `(cx, cz, seed)` — mirroring that
the source reads no mutable state and draws every random value from the
`(cx, cz, seed)`-derived stream — so two calls agree on the entire
obstacle list (count, ids, types, positions, rotations, scales, radii,
dims, order), and likewise `getTerrainHeight` is referentially
transparent. -/
theorem generateChunk_deterministic (m : JSMath) (cx cz : ℤ) (seed : ℚ) :
    generateChunk m cx cz seed = generateChunk m cx cz seed ∧
      ∀ x z : ℚ, getTerrainHeight m x z seed = getTerrainHeight m x z seed :=
  ⟨rfl, fun _ _ => rfl⟩

/-- Claim C6: collision test semantics.  `checkCollision` returns `true`
iff some obstacle passes the axis-aligned broad phase (within 15 units on
both axes) and then either the oriented-box test (for a `wall` with
`dims`: the planar offset inverse-rotated by the yaw lies within the
radius-expanded half-extents) or the circular test (positive radius and
squared planar distance below `(obstacleRadius + actorRadius)²`);
obstacles beyond the broad-phase cutoff are skipped and can never cause a
`true` result. -/
theorem checkCollision_semantics (m : JSMath) (p : Vec3) (obs : List Obstacle) (r : ℚ) :
    checkCollision m p obs r = true ↔
      ∃ o ∈ obs,
        (|p.x - o.position.x| ≤ 15 ∧ |p.z - o.position.z| ≤ 15) ∧
          ((∃ dm, o.dims = some dm ∧ o.type = ObstacleType.wall ∧
              |(p.x - o.position.x) * m.cos (-o.rotation) -
                  (p.z - o.position.z) * m.sin (-o.rotation)| < dm.w / 2 + r ∧
              |(p.x - o.position.x) * m.sin (-o.rotation) +
                  (p.z - o.position.z) * m.cos (-o.rotation)| < dm.d / 2 + r) ∨
            (¬(o.type = ObstacleType.wall ∧ o.dims.isSome = true) ∧ 0 < o.radius ∧
              (p.x - o.position.x) * (p.x - o.position.x) +
                  (p.z - o.position.z) * (p.z - o.position.z) <
                (o.radius + r) * (o.radius + r))) := by
  rw [checkCollision_eq_any]
  constructor
  · rintro ⟨o, ho, hblk⟩
    exact ⟨o, ho, (obsBlocks_iff m p r o).mp hblk⟩
  · rintro ⟨o, ho, hprop⟩
    exact ⟨o, ho, (obsBlocks_iff m p r o).mpr hprop⟩

/-- Claim C9: zero-radius non-wall obstacles never block movement.
(1) A single obstacle whose type is not `wall` and whose radius is `0`
never passes the per-obstacle test; (2) consequently deleting all such
obstacles from a list never changes any `checkCollision` answer; and
(3) every `roof`-typed part emitted by `generateBuilding` for the cottage
and tower archetypes has radius `0` and a non-`wall` type, hence is
completely non-blocking for every query point and actor radius. -/
theorem roof_nonblocking :
    (∀ (m : JSMath) (p : Vec3) (r : ℚ) (o : Obstacle),
      o.type ≠ ObstacleType.wall → o.radius = 0 → obsBlocks m p r o = false) ∧
    (∀ (m : JSMath) (p : Vec3) (obs : List Obstacle) (r : ℚ),
      checkCollision m p obs r =
        checkCollision m p
          (obs.filter fun o => !(decide (o.type ≠ ObstacleType.wall) && decide (o.radius = 0))) r) ∧
    (∀ (m : JSMath) (bt : BuildingType) (x z y rot : ℚ) (icx icz : ℤ) (pref : String),
      bt = BuildingType.cottage ∨ bt = BuildingType.tower →
      ∀ o ∈ generateBuilding m bt x z y rot icx icz pref, o.type = ObstacleType.roof →
        o.radius = 0 ∧ o.type ≠ ObstacleType.wall ∧
          ∀ (q : Vec3) (ar : ℚ), obsBlocks m q ar o = false) := by
  refine ⟨fun m p r o => obsBlocks_nonwall_zero m p r o, fun m p obs r => ?_, ?_⟩
  · rcases h2 : checkCollision m p
        (obs.filter fun o => !(decide (o.type ≠ ObstacleType.wall) && decide (o.radius = 0))) r
      with _ | _
    · rcases h1 : checkCollision m p obs r with _ | _
      · rfl
      · exfalso
        obtain ⟨o, ho, hblk⟩ := (checkCollision_eq_any m p obs r).mp h1
        by_cases hz : o.type ≠ ObstacleType.wall ∧ o.radius = 0
        · rw [obsBlocks_nonwall_zero m p r o hz.1 hz.2] at hblk
          exact Bool.false_ne_true hblk
        · have hmem : o ∈ obs.filter
              fun o => !(decide (o.type ≠ ObstacleType.wall) && decide (o.radius = 0)) := by
            rw [List.mem_filter]
            refine ⟨ho, ?_⟩
            simp only [Bool.not_eq_eq_eq_not, Bool.not_true, Bool.and_eq_false_iff,
              decide_eq_false_iff_not, not_not]
            by_cases hwall : o.type = ObstacleType.wall
            · exact Or.inl hwall
            · exact Or.inr fun hr => hz ⟨hwall, hr⟩
          have := (checkCollision_eq_any m p _ r).mpr ⟨o, hmem, hblk⟩
          rw [h2] at this
          exact Bool.false_ne_true this
    · obtain ⟨o, ho, hblk⟩ := (checkCollision_eq_any m p _ r).mp h2
      exact ((checkCollision_eq_any m p obs r).mpr ⟨o, (List.mem_filter.mp ho).1, hblk⟩)
  · rintro m bt x z y rot icx icz pref (rfl | rfl) o ho hroof
    · simp only [generateBuilding, List.mem_append, List.mem_cons, List.not_mem_nil,
        or_false, List.mem_singleton] at ho
      rcases ho with ((rfl | rfl | rfl) | rfl | rfl | rfl)
      · exact absurd hroof (by simp)
      · exact absurd hroof (by simp)
      · exact absurd hroof (by simp)
      · exact absurd hroof (by simp)
      · exact absurd hroof (by simp)
      · exact ⟨rfl, by simp, fun q ar => obsBlocks_nonwall_zero m q ar _ (by simp) rfl⟩
    · simp only [generateBuilding, List.mem_append, List.mem_cons, List.not_mem_nil,
        or_false, List.mem_singleton] at ho
      rcases ho with ((rfl | rfl | rfl | rfl) | rfl)
      · exact absurd hroof (by simp)
      · exact absurd hroof (by simp)
      · exact absurd hroof (by simp)
      · exact absurd hroof (by simp)
      · exact ⟨rfl, by simp, fun q ar => obsBlocks_nonwall_zero m q ar _ (by simp) rfl⟩

/-- Witness for `roof_nonblocking`: the cottage generated at the origin
contains its `roof` part (radius `0`, type `roof`), and the theorem
applied there yields that it never blocks. -/
theorem roof_nonblocking_witness :
    (BuildingType.cottage = BuildingType.cottage ∨ BuildingType.cottage = BuildingType.tower) ∧
    ∃ o ∈ generateBuilding mZero BuildingType.cottage 0 0 0 0 0 0 "b",
      o.type = ObstacleType.roof ∧ o.radius = 0 ∧ o.type ≠ ObstacleType.wall ∧
        ∀ (q : Vec3) (ar : ℚ), obsBlocks mZero q ar o = false := by
  refine ⟨Or.inl rfl,
    { id := ⟨0, 0, "b:roof"⟩, type := ObstacleType.roof, position := ⟨0, 5, 0⟩,
      rotation := 0, scale := ⟨9, 4, 9⟩, radius := 0, dims := none }, ?_, rfl, ?_⟩
  · norm_num [generateBuilding, WALL_HEIGHT, mZero]
    rfl
  · refine roof_nonblocking.2.2 mZero BuildingType.cottage 0 0 0 0 0 0 "b" (Or.inl rfl) _
      ?_ rfl
    norm_num [generateBuilding, WALL_HEIGHT, mZero]
    rfl

/-- Counterexample for claim C5 on the final variant: `reload` refills the
magazine to `MAX_AMMO` in the very same call (no delay), and a fire
attempt immediately afterwards (here 200 ms later, past only the 100 ms
fire-rate limit, far below any reload delay) succeeds and decrements the
count — so no delay ever blocks firing. -/
theorem reload_counterexample :
    (reload gEmpty).1.ammo = MAX_AMMO ∧
      (fireFrame mZero 123 cam0 dir0 true 200
        { gs := (reload gEmpty).1, enemies := [], lastShot := 0 }).1.gs.ammo = MAX_AMMO - 1 := by
  constructor
  · norm_num [reload, gEmpty, simInit, MAX_AMMO]
  · norm_num [fireFrame, shootHit, scanEnemies, hitPass, applyReward, reload, gEmpty, simInit,
      MAX_AMMO, FIRE_RATE, List.foldl]

/-- Claim C5 (amended): in the final variant `reload` refills the count to
`MAX_AMMO` immediately, with no delay and no firing lock; the delayed
blocking reload belongs to the earlier variant, where `reload()` leaves
the count unchanged, sets the `isReloading` flag and schedules the refill
`RELOAD_DELAY` (1500 ms) later, any fire attempt made while the flag is
set is a no-op (no ammunition decrement, no hitscan), and only the timer
completion restores `MAX_AMMO` and clears the flag. -/
theorem reload_delay_blocks :
    (∀ g : GState, g.ammo < MAX_AMMO → (reload g).1.ammo = MAX_AMMO) ∧
    (∀ (t : ℚ) (s : V1.AmmoSt),
      (V1.reload t s).ammo = s.ammo ∧ (V1.reload t s).reloading = true ∧
        (V1.reload t s).reloadDone = t + V1.RELOAD_DELAY) ∧
    (∀ (t : ℚ) (md : Bool) (s : V1.AmmoSt), s.reloading = true →
      V1.fireFrame t md s = (s, false)) ∧
    (∀ s : V1.AmmoSt,
      (V1.reloadComplete s).ammo = MAX_AMMO ∧ (V1.reloadComplete s).reloading = false) := by
  refine ⟨fun g hg => ?_, fun t s => ⟨rfl, rfl, rfl⟩, fun t md s hr => ?_, fun s => ⟨rfl, rfl⟩⟩
  · unfold reload
    rw [if_pos hg]
  · unfold V1.fireFrame
    rw [if_neg]
    rintro ⟨-, h2, -⟩
    rw [hr] at h2
    exact Bool.noConfusion h2

/-- Witness for `reload_delay_blocks` at concrete inputs. -/
theorem reload_delay_blocks_witness :
    (gEmpty.ammo < MAX_AMMO ∧ (reload gEmpty).1.ammo = MAX_AMMO) ∧
    ((⟨5, true, 1500, 0⟩ : V1.AmmoSt).reloading = true ∧
      V1.fireFrame 700 true ⟨5, true, 1500, 0⟩ = (⟨5, true, 1500, 0⟩, false)) :=
  ⟨⟨by decide, reload_delay_blocks.1 gEmpty (by decide)⟩,
   ⟨rfl, reload_delay_blocks.2.2.1 700 true ⟨5, true, 1500, 0⟩ rfl⟩⟩

theorem applyReward_ammo (hid : Option String) (prev next : List Enemy) (g : GState) :
    (applyReward hid prev next g).ammo = g.ammo := by
  unfold applyReward
  cases hid with
  | none => rfl
  | some i =>
    dsimp only
    cases hfind : List.find? (fun e => decide (e.id = i)) prev with
    | none => rfl
    | some hitEnemy =>
      dsimp only
      split <;> rfl

theorem applyReward_health (hid : Option String) (prev next : List Enemy) (g : GState) :
    (applyReward hid prev next g).health = g.health := by
  unfold applyReward
  cases hid with
  | none => rfl
  | some i =>
    dsimp only
    cases hfind : List.find? (fun e => decide (e.id = i)) prev with
    | none => rfl
    | some hitEnemy =>
      dsimp only
      split <;> rfl

theorem applyReward_mult (hid : Option String) (prev next : List Enemy) (g : GState) :
    (applyReward hid prev next g).damageMultiplier = g.damageMultiplier := by
  unfold applyReward
  cases hid with
  | none => rfl
  | some i =>
    dsimp only
    cases hfind : List.find? (fun e => decide (e.id = i)) prev with
    | none => rfl
    | some hitEnemy =>
      dsimp only
      split <;> rfl

theorem shootHit_ammo (m : JSMath) (seed : ℚ) (cam d : Vec3) (time : ℚ) (g : GState)
    (es : List Enemy) : (shootHit m seed cam d time g es).1.ammo = g.ammo - 1 := by
  unfold shootHit
  rw [applyReward_ammo]

theorem reload_ammo_bounds (g : GState) (h0 : 0 ≤ g.ammo) (h1 : g.ammo ≤ MAX_AMMO) :
    0 ≤ (reload g).1.ammo ∧ (reload g).1.ammo ≤ MAX_AMMO := by
  unfold reload
  split
  · exact ⟨by norm_num [MAX_AMMO], le_refl _⟩
  · exact ⟨h0, h1⟩

theorem aiFrame_gs_ammo (m : JSMath) (seed : ℚ) (obstacles : List Obstacle) (cam : Vec3)
    (delta time : ℚ) (s : Sim) : (aiFrame m seed obstacles cam delta time s).gs.ammo = s.gs.ammo := by
  unfold aiFrame
  dsimp only
  split
  · split <;> rfl
  · rfl

theorem stepEv_ammo_bounds (m : JSMath) (seed : ℚ) (obstacles : List Obstacle) (ev : Ev)
    (s : Sim) (h0 : 0 ≤ s.gs.ammo) (h1 : s.gs.ammo ≤ MAX_AMMO) :
    0 ≤ (stepEv m seed obstacles ev s).gs.ammo ∧
      (stepEv m seed obstacles ev s).gs.ammo ≤ MAX_AMMO := by
  cases ev with
  | fire cam d md time =>
    simp only [stepEv, fireFrame]
    split
    · split
    -- a live round: ammo decremented by one
      · rename_i hpos
        dsimp only
        rw [shootHit_ammo]
        omega
      · dsimp only
        split
        · exact reload_ammo_bounds s.gs h0 h1
        · exact ⟨h0, h1⟩
    · exact ⟨h0, h1⟩
  | ai cam delta time =>
    rw [show stepEv m seed obstacles (Ev.ai cam delta time) s
        = aiFrame m seed obstacles cam delta time s from rfl, aiFrame_gs_ammo]
    exact ⟨h0, h1⟩
  | spawn cam angle dist rand eid => exact ⟨h0, h1⟩
  | reloadKey => exact reload_ammo_bounds s.gs h0 h1
  | buy k =>
    cases k <;> simp only [stepEv, buyAction] <;> split <;>
      first
        | exact ⟨by norm_num [MAX_AMMO], le_refl _⟩
        | exact ⟨h0, h1⟩

/-- Claim C7: ammunition bounds and the empty-fire path.  Over every
sequence of simulation events the ammunition count stays within
`[0, MAX_AMMO]`; and a fire attempt with `0` ammunition never decrements
(the state's enemies are untouched — no hitscan, no damage) and always
takes the empty-fire path: the `empty` cue plays and the automatic reload
runs (in this final variant refilling to `MAX_AMMO`). -/
theorem ammo_bounds :
    (∀ (m : JSMath) (seed : ℚ) (obstacles : List Obstacle) (evs : List Ev) (s : Sim),
      0 ≤ s.gs.ammo → s.gs.ammo ≤ MAX_AMMO →
        0 ≤ (runEv m seed obstacles evs s).gs.ammo ∧
          (runEv m seed obstacles evs s).gs.ammo ≤ MAX_AMMO) ∧
    (∀ (m : JSMath) (seed : ℚ) (cam d : Vec3) (time : ℚ) (s : Sim),
      s.gs.ammo = 0 → time - s.lastShot > FIRE_RATE →
        fireFrame m seed cam d true time s =
          ({ s with gs := { s.gs with ammo := MAX_AMMO } }, [Cue.empty, Cue.reloadCue])) := by
  constructor
  · intro m seed obstacles evs
    induction evs with
    | nil => exact fun s h0 h1 => ⟨h0, h1⟩
    | cons ev rest ih =>
      intro s h0 h1
      have hstep := stepEv_ammo_bounds m seed obstacles ev s h0 h1
      exact ih (stepEv m seed obstacles ev s) hstep.1 hstep.2
  · intro m seed cam d time s h0 hrate
    unfold fireFrame
    rw [if_pos ⟨rfl, hrate⟩, if_neg (by omega), if_pos h0]
    unfold reload
    rw [if_pos (by rw [h0]; norm_num [MAX_AMMO])]
    rfl

/-- Witness for `ammo_bounds` at concrete inputs. -/
theorem ammo_bounds_witness :
    ((0 : ℤ) ≤ simInit.gs.ammo ∧ simInit.gs.ammo ≤ MAX_AMMO ∧
      0 ≤ (runEv mZero 123 [] [Ev.reloadKey, Ev.buy BuyKind.ammoB] simInit).gs.ammo ∧
      (runEv mZero 123 [] [Ev.reloadKey, Ev.buy BuyKind.ammoB] simInit).gs.ammo ≤ MAX_AMMO) ∧
    (gEmpty.ammo = 0 ∧ (200 : ℚ) - 0 > FIRE_RATE ∧
      fireFrame mZero 123 cam0 dir0 true 200 { gs := gEmpty, enemies := [], lastShot := 0 } =
        ({ gs := { gEmpty with ammo := MAX_AMMO }, enemies := [], lastShot := 0 },
          [Cue.empty, Cue.reloadCue])) := by
  refine ⟨⟨by decide, by decide, ?_⟩, rfl, by norm_num [FIRE_RATE], ?_⟩
  · exact (ammo_bounds.1 mZero 123 [] [Ev.reloadKey, Ev.buy BuyKind.ammoB] simInit
      (by decide) (by decide)).imp id id
  · exact ammo_bounds.2 mZero 123 cam0 dir0 200 _ rfl (by norm_num [FIRE_RATE])

theorem idsOf_inj (es : List Enemy) (h : (idsOf es).Nodup) :
    ∀ x ∈ es, ∀ y ∈ es, x.id = y.id → x = y := by
  induction es with
  | nil => intro x hx; cases hx
  | cons a l ih =>
    simp only [idsOf, List.map_cons, List.nodup_cons] at h
    intro x hx y hy hxy
    rcases List.mem_cons.mp hx with rfl | hx2
    · rcases List.mem_cons.mp hy with rfl | hy2
      · rfl
      · exfalso
        apply h.1
        rw [hxy]
        exact List.mem_map_of_mem Enemy.id hy2
    · rcases List.mem_cons.mp hy with rfl | hy2
      · exfalso
        apply h.1
        rw [← hxy]
        exact List.mem_map_of_mem Enemy.id hx2
      · exact ih h.2 x hx2 y hy2 hxy

theorem scanFold_go (m : JSMath) (seed : ℚ) (cam d : Vec3) :
    ∀ (es : List Enemy) (acc : ℚ × Option String),
      (es.foldl (scanStep m seed cam d) acc = acc ∧
        ∀ e ∈ es, qualifies m seed cam d e → acc.1 ≤ camDistSq m seed cam e) ∨
      (∃ e ∈ es, qualifies m seed cam d e ∧
        es.foldl (scanStep m seed cam d) acc = (camDistSq m seed cam e, some e.id) ∧
        camDistSq m seed cam e < acc.1 ∧
        ∀ e2 ∈ es, qualifies m seed cam d e2 →
          camDistSq m seed cam e ≤ camDistSq m seed cam e2) := by
  intro es
  induction es with
  | nil => exact fun acc => Or.inl ⟨rfl, by simp⟩
  | cons e l ih =>
    intro acc
    rw [List.foldl_cons]
    by_cases h1 : e.isDead = true
    · have hstep : scanStep m seed cam d acc e = acc := by
        simp only [scanStep]
        rw [if_pos h1]
      rw [hstep]
      have hqe : ¬ qualifies m seed cam d e := fun hq => by
        rw [hq.1] at h1
        exact Bool.noConfusion h1
      rcases ih acc with ⟨heq, hall⟩ | ⟨e2, he2, hq2, heq2, hlt2, hmin2⟩
      · refine Or.inl ⟨heq, ?_⟩
        intro e3 he3 hq3
        rcases List.mem_cons.mp he3 with rfl | h
        · exact absurd hq3 hqe
        · exact hall e3 h hq3
      · refine Or.inr ⟨e2, List.mem_cons_of_mem e he2, hq2, heq2, hlt2, ?_⟩
        intro e3 he3 hq3
        rcases List.mem_cons.mp he3 with rfl | h
        · exact absurd hq3 hqe
        · exact hmin2 e3 h hq3
    · have h1' : e.isDead = false := by
        revert h1
        cases e.isDead <;> simp
      by_cases h2 : rayDistSq cam d (torso m seed e) <
          2 * (ENEMY_CONFIG e.type).scale * (2 * (ENEMY_CONFIG e.type).scale)
      · by_cases h3 : camDistSq m seed cam e < acc.1
        · have hstep : scanStep m seed cam d acc e = (camDistSq m seed cam e, some e.id) := by
            simp only [scanStep]
            rw [if_neg h1, if_pos h2, if_pos h3]
          rw [hstep]
          rcases ih (camDistSq m seed cam e, some e.id) with ⟨heq, hall⟩ |
            ⟨e2, he2, hq2, heq2, hlt2, hmin2⟩
          · refine Or.inr ⟨e, List.mem_cons_self e l, ⟨h1', h2⟩, heq, h3, ?_⟩
            intro e3 he3 hq3
            rcases List.mem_cons.mp he3 with rfl | h
            · exact le_refl _
            · exact hall e3 h hq3
          · refine Or.inr ⟨e2, List.mem_cons_of_mem e he2, hq2, heq2, hlt2.trans h3, ?_⟩
            intro e3 he3 hq3
            rcases List.mem_cons.mp he3 with rfl | h
            · exact hlt2.le
            · exact hmin2 e3 h hq3
        · have hstep : scanStep m seed cam d acc e = acc := by
            simp only [scanStep]
            rw [if_neg h1, if_pos h2, if_neg h3]
          rw [hstep]
          rcases ih acc with ⟨heq, hall⟩ | ⟨e2, he2, hq2, heq2, hlt2, hmin2⟩
          · refine Or.inl ⟨heq, ?_⟩
            intro e3 he3 hq3
            rcases List.mem_cons.mp he3 with rfl | h
            · exact not_lt.mp h3
            · exact hall e3 h hq3
          · refine Or.inr ⟨e2, List.mem_cons_of_mem e he2, hq2, heq2, hlt2, ?_⟩
            intro e3 he3 hq3
            rcases List.mem_cons.mp he3 with rfl | h
            · exact hlt2.le.trans (not_lt.mp h3)
            · exact hmin2 e3 h hq3
      · have hstep : scanStep m seed cam d acc e = acc := by
          simp only [scanStep]
          rw [if_neg h1, if_neg h2]
        rw [hstep]
        have hqe : ¬ qualifies m seed cam d e := fun hq => h2 hq.2
        rcases ih acc with ⟨heq, hall⟩ | ⟨e2, he2, hq2, heq2, hlt2, hmin2⟩
        · refine Or.inl ⟨heq, ?_⟩
          intro e3 he3 hq3
          rcases List.mem_cons.mp he3 with rfl | h
          · exact absurd hq3 hqe
          · exact hall e3 h hq3
        · refine Or.inr ⟨e2, List.mem_cons_of_mem e he2, hq2, heq2, hlt2, ?_⟩
          intro e3 he3 hq3
          rcases List.mem_cons.mp he3 with rfl | h
          · exact absurd hq3 hqe
          · exact hmin2 e3 h hq3

theorem scanEnemies_cases (m : JSMath) (seed : ℚ) (cam d : Vec3) (es : List Enemy) :
    (scanEnemies m seed cam d es = (10000, none) ∧
      ∀ e ∈ es, qualifies m seed cam d e → (10000 : ℚ) ≤ camDistSq m seed cam e) ∨
    (∃ e ∈ es, qualifies m seed cam d e ∧
      scanEnemies m seed cam d es = (camDistSq m seed cam e, some e.id) ∧
      camDistSq m seed cam e < 10000 ∧
      ∀ e2 ∈ es, qualifies m seed cam d e2 →
        camDistSq m seed cam e ≤ camDistSq m seed cam e2) :=
  scanFold_go m seed cam d es (10000, none)

/-- Counterexample for claim C2 as stated: `eFar` is live, sits exactly on
the shot ray (squared point-to-ray distance `0.5184 < 2.56`, so it
qualifies in the claim's sense), yet the shot changes nobody — the scan's
`minDist` starts at the 100-unit far clip and `eFar` is ~150 units from
the camera, so the claim's "if any actor qualifies, the damaged actor is
one with minimum camera distance" is false at this input: the enemy list
comes back unchanged. -/
theorem hitscan_counterexample :
    qualifies mZero 123 cam0 dir0 eFar ∧
      (shootHit mZero 123 cam0 dir0 0 simInit.gs [eFar]).2.1 = [eFar] := by
  constructor
  · refine ⟨rfl, ?_⟩
    norm_num [rayDistSq, torso, getTerrainHeight, getRoadInfluence, smoothNoise, noise,
      jsFract, jsRem, jsTrunc, mZero, cam0, dir0, eFar, ENEMY_CONFIG, Vec3.dot,
      Vec3.lengthSq, Vec3.add_def, Vec3.sub_def, Vec3.smul_def]
  · norm_num [shootHit, hitPass, scanEnemies, scanStep, torso, camDistSq, rayDistSq,
      getTerrainHeight, getRoadInfluence, smoothNoise, noise, jsFract, jsRem, jsTrunc,
      mZero, cam0, dir0, eFar, ENEMY_CONFIG, Vec3.dot, Vec3.lengthSq, List.foldl,
      Vec3.add_def, Vec3.sub_def, Vec3.smul_def, simInit]
    intro h
    exact Option.noConfusion h

/-- Claim C2 (amended): hitscan is single-target nearest-takes-all *among
candidates within the 100-unit ray clip*.  For every shot over a list of
actors with distinct ids: if no live actor has its torso within the
scale-dependent hit radius of the ray *and* its camera distance below 100,
the pass leaves every actor unchanged; otherwise the damaged actor is one
such candidate with the minimum camera distance among all qualifying
actors, it receives `35 × damageMultiplier` damage (hp clamped at 0), and
every other actor is carried over unchanged. -/
theorem hitscan_nearest_capped (m : JSMath) (seed : ℚ) (cam d : Vec3) (time mult : ℚ)
    (es : List Enemy) (hnd : (idsOf es).Nodup) :
    ((¬ ∃ e ∈ es, qualifiesCap m seed cam d e) →
      hitPass m d time (35 * mult) (scanEnemies m seed cam d es).2 es = es) ∧
    ((∃ e ∈ es, qualifiesCap m seed cam d e) →
      ∃ e ∈ es, qualifiesCap m seed cam d e ∧
        (∀ e2 ∈ es, qualifies m seed cam d e2 →
          camDistSq m seed cam e ≤ camDistSq m seed cam e2) ∧
        hitPass m d time (35 * mult) (scanEnemies m seed cam d es).2 es =
          es.map (fun x => if x.id = e.id then applyHit m d time (35 * mult) x else x) ∧
        (applyHit m d time (35 * mult) e).hp = max 0 (e.hp - 35 * mult) ∧
        ∀ x ∈ es, x ≠ e →
          x ∈ hitPass m d time (35 * mult) (scanEnemies m seed cam d es).2 es) := by
  rcases scanEnemies_cases m seed cam d es with ⟨heq, hall⟩ | ⟨e, he, hq, heq, hlt, hmin⟩
  · constructor
    · intro
      rw [heq]
      simp only [hitPass]
      have : ∀ x ∈ es, (if some x.id = (none : Option String) then
          applyHit m d time (35 * mult) x else x) = x := by
        intro x hx
        rw [if_neg (by simp)]
      calc es.map (fun x => if some x.id = (10000, (none : Option String)).2 then
              applyHit m d time (35 * mult) x else x)
          = es.map id := List.map_congr_left (by simp only [id]; exact this)
        _ = es := List.map_id es
    · rintro ⟨e, he, hq, hc⟩
      exact absurd (hall e he hq) (not_le.mpr hc)
  · constructor
    · intro hno
      exact absurd ⟨e, he, hq, hlt⟩ hno
    · intro
      refine ⟨e, he, ⟨hq, hlt⟩, hmin, ?_, ?_, ?_⟩
      · rw [heq]
        simp only [hitPass, Option.some.injEq]
      · unfold applyHit
        by_cases hle : e.hp - 35 * mult ≤ 0
        · rw [if_pos hle]
          exact (max_eq_left hle).symm
        · rw [if_neg hle]
          exact (max_eq_right (le_of_lt (lt_of_not_le hle))).symm
      · intro x hx hne
        rw [heq]
        simp only [hitPass]
        have hnid : ¬ (some x.id = (camDistSq m seed cam e, some e.id).2) := by
          simp only [Option.some.injEq]
          intro hid
          exact hne (idsOf_inj es hnd x hx e he hid)
        have hx2 := List.mem_map_of_mem
          (fun y => if some y.id = (camDistSq m seed cam e, some e.id).2 then
            applyHit m d time (35 * mult) y else y) hx
        dsimp only at hx2
        rw [if_neg hnid] at hx2
        exact hx2

/-- Witness for `hitscan_nearest_capped`: the single-villager list
`[eNear]` has distinct ids, and the theorem applied there gives the full
conclusion. -/
theorem hitscan_nearest_capped_witness :
    (idsOf [eNear]).Nodup ∧
    (((¬ ∃ e ∈ [eNear], qualifiesCap mZero 123 cam0 dir0 e) →
        hitPass mZero dir0 0 (35 * 1) (scanEnemies mZero 123 cam0 dir0 [eNear]).2 [eNear] =
          [eNear]) ∧
      ((∃ e ∈ [eNear], qualifiesCap mZero 123 cam0 dir0 e) →
        ∃ e ∈ [eNear], qualifiesCap mZero 123 cam0 dir0 e ∧
          (∀ e2 ∈ [eNear], qualifies mZero 123 cam0 dir0 e2 →
            camDistSq mZero 123 cam0 e ≤ camDistSq mZero 123 cam0 e2) ∧
          hitPass mZero dir0 0 (35 * 1) (scanEnemies mZero 123 cam0 dir0 [eNear]).2 [eNear] =
            [eNear].map (fun x => if x.id = e.id then applyHit mZero dir0 0 (35 * 1) x else x) ∧
          (applyHit mZero dir0 0 (35 * 1) e).hp = max 0 (e.hp - 35 * 1) ∧
          ∀ x ∈ [eNear], x ≠ e →
            x ∈ hitPass mZero dir0 0 (35 * 1) (scanEnemies mZero 123 cam0 dir0 [eNear]).2
              [eNear])) :=
  ⟨by decide, hitscan_nearest_capped mZero 123 cam0 dir0 0 1 [eNear] (by decide)⟩

theorem applyHit_id (m : JSMath) (d : Vec3) (time dmg : ℚ) (e : Enemy) :
    (applyHit m d time dmg e).id = e.id := by
  simp only [applyHit]
  split <;> rfl

theorem find_id_of_nodup :
    ∀ (es : List Enemy), (idsOf es).Nodup → ∀ e ∈ es,
      es.find? (fun x => decide (x.id = e.id)) = some e := by
  intro es
  induction es with
  | nil =>
    intro _ e he
    cases he
  | cons a l ih =>
    intro hnd e he
    simp only [idsOf, List.map_cons, List.nodup_cons] at hnd
    rcases List.mem_cons.mp he with rfl | hmem
    · exact List.find?_cons_of_pos l (by simp)
    · have hne : ¬ ((fun x => decide (x.id = e.id)) a = true) := by
        simp only [decide_eq_true_eq]
        intro h
        apply hnd.1
        rw [h]
        exact List.mem_map_of_mem Enemy.id hmem
      rw [List.find?_cons_of_neg l hne]
      refine ih ?_ e hmem
      simp only [idsOf]
      exact hnd.2

theorem hitPass_find_hit (m : JSMath) (d : Vec3) (time dmg : ℚ) (es : List Enemy)
    (hnd : (idsOf es).Nodup) (e : Enemy) (he : e ∈ es) :
    (hitPass m d time dmg (some e.id) es).find? (fun x => decide (x.id = e.id)) =
      some (applyHit m d time dmg e) := by
  unfold hitPass
  rw [List.find?_map]
  have hcomp : ((fun x => decide (x.id = e.id)) ∘
      fun x => if some x.id = some e.id then applyHit m d time dmg x else x) =
      fun x => decide (x.id = e.id) := by
    funext x
    simp only [Function.comp]
    refine decide_eq_decide.mpr ?_
    by_cases hx : x.id = e.id
    · rw [if_pos (by rw [hx]), applyHit_id]
    · rw [if_neg (by simp [hx])]
  rw [hcomp, find_id_of_nodup es hnd e he]
  simp

/-- Claim C10: killing a civilian decreases score and leaves gold
unchanged.  If the hitscan selects a villager whose remaining hp does not
exceed `35 × damageMultiplier` (so the shot kills), then the resulting
player state has `score = score - 100` (the villager's configured score of
`-100`, so total score strictly decreases and may go negative) and
unchanged gold (villager gold reward `0`). -/
theorem villager_kill_penalty (m : JSMath) (seed : ℚ) (cam d : Vec3) (time : ℚ) (g : GState)
    (es : List Enemy) (hnd : (idsOf es).Nodup) (e : Enemy) (he : e ∈ es)
    (hv : e.type = EnemyType.villager)
    (hsel : (scanEnemies m seed cam d es).2 = some e.id)
    (hp0 : 0 < e.hp) (hpd : e.hp ≤ 35 * g.damageMultiplier) :
    (shootHit m seed cam d time g es).1.score = g.score - 100 ∧
      (shootHit m seed cam d time g es).1.gold = g.gold := by
  unfold shootHit
  dsimp only
  rw [hsel]
  unfold applyReward
  dsimp only
  rw [find_id_of_nodup es hnd e he]
  dsimp only
  rw [hitPass_find_hit m d time (35 * g.damageMultiplier) es hnd e he]
  have hdead : (applyHit m d time (35 * g.damageMultiplier) e).hp = 0 := by
    unfold applyHit
    rw [if_pos (by linarith)]
  rw [if_pos ⟨hp0, by simp only [Option.map_some']; rw [hdead]⟩]
  rw [hv]
  dsimp only [ENEMY_CONFIG]
  constructor <;> ring

/-- Witness for `villager_kill_penalty`: one live villager 10 units ahead,
full hp 30, damage 35 × 1 — applying the theorem yields score −100 and
unchanged gold. -/
theorem villager_kill_penalty_witness :
    ((idsOf [eNear]).Nodup ∧ eNear ∈ [eNear] ∧ eNear.type = EnemyType.villager ∧
      (scanEnemies mZero 123 cam0 dir0 [eNear]).2 = some eNear.id ∧
      (0 : ℚ) < eNear.hp ∧ eNear.hp ≤ 35 * simInit.gs.damageMultiplier) ∧
    ((shootHit mZero 123 cam0 dir0 7 simInit.gs [eNear]).1.score = simInit.gs.score - 100 ∧
      (shootHit mZero 123 cam0 dir0 7 simInit.gs [eNear]).1.gold = simInit.gs.gold) := by
  have hsel : (scanEnemies mZero 123 cam0 dir0 [eNear]).2 = some eNear.id := by
    norm_num [scanEnemies, scanStep, torso, camDistSq, rayDistSq, getTerrainHeight,
      getRoadInfluence, smoothNoise, noise, jsFract, jsRem, jsTrunc, seededRandom, mZero,
      cam0, dir0, eNear, ENEMY_CONFIG, Vec3.dot, Vec3.lengthSq, List.foldl,
      Vec3.add_def, Vec3.sub_def, Vec3.smul_def]
  refine ⟨⟨by decide, by simp, rfl, hsel, by norm_num [eNear], by norm_num [eNear, simInit]⟩, ?_⟩
  exact villager_kill_penalty mZero 123 cam0 dir0 7 simInit.gs [eNear] (by decide) eNear
    (by simp) rfl hsel (by norm_num [eNear]) (by norm_num [eNear, simInit])

theorem planar_eq (cam : Vec3) (e : Enemy) :
    ((⟨cam.x, 0, cam.z⟩ : Vec3) - ⟨e.position.x, 0, e.position.z⟩).lengthSq =
      planarDistSq cam e := by
  simp only [Vec3.sub_def, Vec3.lengthSq, planarDistSq]
  ring

theorem aiMove_damage (m : JSMath) (seed : ℚ) (obstacles : List Obstacle) (cam : Vec3)
    (delta : ℚ) (e : Enemy) :
    (aiMoveEnemy m seed obstacles cam delta e).2 =
      if (!e.isDead && !(e.type == EnemyType.villager) &&
          decide (planarDistSq cam e < 2.25)) = true
      then 0.2 else 0 := by
  unfold aiMoveEnemy
  by_cases h1 : e.isDead = true
  · rw [if_pos h1]
    simp [h1]
  · have h1' : e.isDead = false := by
      revert h1
      cases e.isDead <;> simp
    rw [if_neg h1]
    dsimp only
    rw [planar_eq]
    by_cases h2 : planarDistSq cam e > 2500
    · rw [if_pos h2]
      have hno : ¬ planarDistSq cam e < 2.25 := by
        intro h
        norm_num at h2 h
        linarith
      simp [h1', hno]
    · rw [if_neg h2]
      by_cases h3 : e.type = EnemyType.villager
      · rw [if_pos h3]
        simp [h3, h1']
      · rw [if_neg h3]
        by_cases h4 : planarDistSq cam e < 2.25
        · rw [if_pos h4]
          simp [h1', h3, h4]
        · rw [if_neg h4]
          simp [h1', h3, h4]

theorem aiFrame_damage_sum (m : JSMath) (seed : ℚ) (obstacles : List Obstacle) (cam : Vec3)
    (delta : ℚ) :
    ∀ es : List Enemy,
      ((es.map (aiMoveEnemy m seed obstacles cam delta)).map Prod.snd).sum =
        0.2 * (attackers cam es : ℚ) := by
  intro es
  induction es with
  | nil => simp [attackers]
  | cons e l ih =>
    simp only [List.map_cons, List.sum_cons, ih, attackers, List.countP_cons]
    rw [aiMove_damage]
    by_cases hp : (!e.isDead && !(e.type == EnemyType.villager) &&
        decide (planarDistSq cam e < 2.25)) = true
    · rw [if_pos hp]
      simp only [attackers] at ih ⊢
      rw [hp]
      simp only [if_pos rfl]
      push_cast
      ring
    · rw [if_neg hp]
      have hp' : (!e.isDead && !(e.type == EnemyType.villager) &&
          decide (planarDistSq cam e < 2.25)) = false := by
        revert hp
        cases (!e.isDead && !(e.type == EnemyType.villager) &&
          decide (planarDistSq cam e < 2.25)) <;> simp
      rw [hp']
      simp

theorem aiMove_attacking (m : JSMath) (seed : ℚ) (obstacles : List Obstacle) (cam : Vec3)
    (delta : ℚ) (e : Enemy) (h1 : e.isDead = false) (h3 : e.type ≠ EnemyType.villager)
    (h4 : planarDistSq cam e < 2.25) :
    (aiMoveEnemy m seed obstacles cam delta e).1 =
      { e with isAttacking := true,
               position := ⟨e.position.x,
                 getTerrainHeight m e.position.x e.position.z seed, e.position.z⟩ } := by
  unfold aiMoveEnemy
  rw [if_neg (by rw [h1]; exact Bool.noConfusion)]
  dsimp only
  rw [planar_eq]
  rw [if_neg (by intro h; norm_num at h h4; linarith), if_neg h3, if_pos h4]

/-- Claim C8: attack damage stacks additively.  In a frame's actor update,
every live non-civilian actor within attack range (planar distance
`< 1.5`, squared `2.25`) ends the frame in the attacking state, and the
player's health drops by exactly `0.2 × k` where `k` is the number of such
simultaneous attackers (stated under `0.2·k ≤ health`; at lower health the
loss is clamped at zero health). -/
theorem attack_damage_stacks (m : JSMath) (seed : ℚ) (obstacles : List Obstacle) (cam : Vec3)
    (delta time : ℚ) (s : Sim) :
    (∀ e ∈ s.enemies, e.isDead = false → e.type ≠ EnemyType.villager →
      planarDistSq cam e < 2.25 →
      ∃ e2 ∈ (aiFrame m seed obstacles cam delta time s).enemies,
        e2.id = e.id ∧ e2.isAttacking = true) ∧
    (0.2 * (attackers cam s.enemies : ℚ) ≤ s.gs.health →
      (aiFrame m seed obstacles cam delta time s).gs.health =
        s.gs.health - 0.2 * (attackers cam s.enemies : ℚ)) := by
  constructor
  · intro e he h1 h3 h4
    refine ⟨(aiMoveEnemy m seed obstacles cam delta e).1, ?_, ?_, ?_⟩
    · unfold aiFrame
      dsimp only
      refine List.mem_filter.mpr ⟨List.mem_map_of_mem Prod.fst
        (List.mem_map_of_mem (aiMoveEnemy m seed obstacles cam delta) he), ?_⟩
      rw [aiMove_attacking m seed obstacles cam delta e h1 h3 h4]
      simp [h1]
    · rw [aiMove_attacking m seed obstacles cam delta e h1 h3 h4]
    · rw [aiMove_attacking m seed obstacles cam delta e h1 h3 h4]
  · intro hle
    have hsum := aiFrame_damage_sum m seed obstacles cam delta s.enemies
    unfold aiFrame
    dsimp only
    rw [hsum]
    by_cases hk : (0.2 : ℚ) * (attackers cam s.enemies : ℚ) > 0
    · rw [if_pos hk]
      have hmax : max 0 (s.gs.health - 0.2 * (attackers cam s.enemies : ℚ)) =
          s.gs.health - 0.2 * (attackers cam s.enemies : ℚ) :=
        max_eq_right (by linarith)
      rw [hmax]
      by_cases hz : s.gs.health - 0.2 * (attackers cam s.enemies : ℚ) = 0 ∧
          s.gs.isPlaying = true
      · rw [if_pos hz]
        dsimp only
        rw [← hz.1]
      · rw [if_neg hz]
    · rw [if_neg hk]
      have hzero : (attackers cam s.enemies : ℚ) = 0 := by
        rcases Nat.eq_zero_or_pos (attackers cam s.enemies) with h | h
        · rw [h]
          norm_num
        · exfalso
          apply hk
          have : (1 : ℚ) ≤ (attackers cam s.enemies : ℚ) := by
            exact_mod_cast h
          nlinarith
      rw [hzero]
      norm_num

/-- Witness for `attack_damage_stacks`: one knight standing one unit from
the player is attacking after the frame and the player loses exactly
`0.2` health. -/
theorem attack_damage_stacks_witness :
    (eKnight.isDead = false ∧ eKnight.type ≠ EnemyType.villager ∧
      planarDistSq cam0 eKnight < 2.25 ∧
      (0.2 : ℚ) * (attackers cam0 [eKnight] : ℚ) ≤ simInit.gs.health) ∧
    ((∃ e2 ∈ (aiFrame mZero 123 [] cam0 (1/60) 0
        { gs := simInit.gs, enemies := [eKnight], lastShot := 0 }).enemies,
        e2.id = eKnight.id ∧ e2.isAttacking = true) ∧
      (aiFrame mZero 123 [] cam0 (1/60) 0
        { gs := simInit.gs, enemies := [eKnight], lastShot := 0 }).gs.health =
        simInit.gs.health - 0.2 * (attackers cam0 [eKnight] : ℚ)) := by
  have hatk : (attackers cam0 [eKnight] : ℚ) = 1 := by
    norm_num [attackers, List.countP_cons, planarDistSq, cam0, eKnight]
    decide
  have hpd : planarDistSq cam0 eKnight < 2.25 := by
    norm_num [planarDistSq, cam0, eKnight]
  have hkn : eKnight.type ≠ EnemyType.villager := by
    intro h
    exact EnemyType.noConfusion h
  refine ⟨⟨rfl, hkn, hpd, by rw [hatk]; norm_num [simInit]⟩, ?_, ?_⟩
  · exact (attack_damage_stacks mZero 123 [] cam0 (1/60) 0
      { gs := simInit.gs, enemies := [eKnight], lastShot := 0 }).1 eKnight (by simp) rfl
      hkn hpd
  · exact (attack_damage_stacks mZero 123 [] cam0 (1/60) 0
      { gs := simInit.gs, enemies := [eKnight], lastShot := 0 }).2 (by rw [hatk]; norm_num [simInit])

theorem shootHit_enemies (m : JSMath) (seed : ℚ) (cam d : Vec3) (time : ℚ) (g : GState)
    (es : List Enemy) :
    (shootHit m seed cam d time g es).2.1 =
      hitPass m d time (35 * g.damageMultiplier) (scanEnemies m seed cam d es).2 es := rfl

theorem shootHit_mult (m : JSMath) (seed : ℚ) (cam d : Vec3) (time : ℚ) (g : GState)
    (es : List Enemy) :
    (shootHit m seed cam d time g es).1.damageMultiplier = g.damageMultiplier := by
  unfold shootHit
  rw [applyReward_mult]

theorem aiFrame_gs_mult (m : JSMath) (seed : ℚ) (obstacles : List Obstacle) (cam : Vec3)
    (delta time : ℚ) (s : Sim) :
    (aiFrame m seed obstacles cam delta time s).gs.damageMultiplier =
      s.gs.damageMultiplier := by
  unfold aiFrame
  dsimp only
  split
  · split <;> rfl
  · rfl

theorem applyHit_bounds (m : JSMath) (d : Vec3) (time dmg : ℚ) (e : Enemy)
    (h0 : 0 ≤ e.hp) (h1 : e.hp ≤ e.maxHp) (hd : 0 ≤ dmg) :
    0 ≤ (applyHit m d time dmg e).hp ∧
      (applyHit m d time dmg e).hp ≤ (applyHit m d time dmg e).maxHp := by
  unfold applyHit
  dsimp only
  split
  · exact ⟨le_refl 0, by dsimp only; linarith⟩
  · rename_i hlt
    dsimp only
    constructor
    · linarith [lt_of_not_le hlt]
    · linarith

theorem applyHit_maxHp (m : JSMath) (d : Vec3) (time dmg : ℚ) (e : Enemy) :
    (applyHit m d time dmg e).maxHp = e.maxHp := by
  unfold applyHit
  dsimp only
  split <;> rfl

theorem aiMove_fields (m : JSMath) (seed : ℚ) (obstacles : List Obstacle) (cam : Vec3)
    (delta : ℚ) (e : Enemy) :
    (aiMoveEnemy m seed obstacles cam delta e).1.hp = e.hp ∧
      (aiMoveEnemy m seed obstacles cam delta e).1.maxHp = e.maxHp ∧
      (aiMoveEnemy m seed obstacles cam delta e).1.id = e.id ∧
      (aiMoveEnemy m seed obstacles cam delta e).1.isDead = e.isDead := by
  unfold aiMoveEnemy
  dsimp only
  repeat' split
  all_goals exact ⟨rfl, rfl, rfl, rfl⟩

theorem aiMove_dead (m : JSMath) (seed : ℚ) (obstacles : List Obstacle) (cam : Vec3)
    (delta : ℚ) (e : Enemy) (h : e.isDead = true) :
    aiMoveEnemy m seed obstacles cam delta e = (e, 0) := by
  unfold aiMoveEnemy
  rw [if_pos h]

theorem aiFrame_mem (m : JSMath) (seed : ℚ) (obstacles : List Obstacle) (cam : Vec3)
    (delta time : ℚ) (s : Sim) :
    ∀ e2 ∈ (aiFrame m seed obstacles cam delta time s).enemies,
      ∃ x ∈ s.enemies, e2 = (aiMoveEnemy m seed obstacles cam delta x).1 := by
  intro e2 h2
  unfold aiFrame at h2
  dsimp only at h2
  obtain ⟨h2m, -⟩ := List.mem_filter.mp h2
  obtain ⟨p, hp, rfl⟩ := List.mem_map.mp h2m
  obtain ⟨x, hx, rfl⟩ := List.mem_map.mp hp
  exact ⟨x, hx, rfl⟩

theorem hitPass_mem (m : JSMath) (d : Vec3) (time dmg : ℚ) (hid : Option String)
    (es : List Enemy) :
    ∀ e2 ∈ hitPass m d time dmg hid es,
      ∃ x ∈ es, e2 = if some x.id = hid then applyHit m d time dmg x else x := by
  intro e2 h2
  unfold hitPass at h2
  obtain ⟨x, hx, rfl⟩ := List.mem_map.mp h2
  exact ⟨x, hx, rfl⟩

/-- The scan never selects a dead actor (under distinct ids). -/
theorem scan_not_dead (m : JSMath) (seed : ℚ) (cam d : Vec3) (es : List Enemy)
    (hnd : (idsOf es).Nodup) (e : Enemy) (he : e ∈ es) (hdead : e.isDead = true) :
    (scanEnemies m seed cam d es).2 ≠ some e.id := by
  intro hsel
  rcases scanEnemies_cases m seed cam d es with ⟨heq, -⟩ | ⟨sel, hsmem, hq, heq, -, -⟩
  · rw [heq] at hsel
    exact Option.noConfusion hsel
  · rw [heq] at hsel
    dsimp only at hsel
    have hid : sel.id = e.id := Option.some.inj hsel
    have : sel = e := idsOf_inj es hnd sel hsmem e he hid
    rw [this] at hq
    rw [hq.1] at hdead
    exact Bool.noConfusion hdead

theorem fireFrame_enemies_cases (m : JSMath) (seed : ℚ) (cam d : Vec3) (md : Bool)
    (time : ℚ) (s : Sim) :
    (fireFrame m seed cam d md time s).1.enemies = s.enemies ∨
      (fireFrame m seed cam d md time s).1.enemies =
        hitPass m d time (35 * s.gs.damageMultiplier)
          (scanEnemies m seed cam d s.enemies).2 s.enemies := by
  unfold fireFrame
  split
  · split
    · exact Or.inr rfl
    · exact Or.inl rfl
  · exact Or.inl rfl

theorem stepEv_mult_nonneg (m : JSMath) (seed : ℚ) (obstacles : List Obstacle) (ev : Ev)
    (s : Sim) (hm : 0 ≤ s.gs.damageMultiplier) :
    0 ≤ (stepEv m seed obstacles ev s).gs.damageMultiplier := by
  cases ev with
  | fire cam d md time =>
    simp only [stepEv, fireFrame]
    split
    · split
      · dsimp only
        rw [shootHit_mult]
        exact hm
      · dsimp only
        split
        · unfold reload
          split <;> exact hm
        · exact hm
    · exact hm
  | ai cam delta time =>
    rw [show stepEv m seed obstacles (Ev.ai cam delta time) s
        = aiFrame m seed obstacles cam delta time s from rfl, aiFrame_gs_mult]
    exact hm
  | spawn cam angle dist rand eid => exact hm
  | reloadKey =>
    simp only [stepEv, reload]
    split <;> exact hm
  | buy k =>
    cases k <;> simp only [stepEv, buyAction] <;> split <;>
      first
        | exact hm
        | (dsimp only; linarith)

theorem stepEv_hpInv (m : JSMath) (seed : ℚ) (obstacles : List Obstacle) (ev : Ev) (s : Sim)
    (hh : HpInv s.enemies) (hm : 0 ≤ s.gs.damageMultiplier) :
    HpInv (stepEv m seed obstacles ev s).enemies := by
  cases ev with
  | fire cam d md time =>
    rcases fireFrame_enemies_cases m seed cam d md time s with heq | heq
    · intro e2 h2
      rw [show (stepEv m seed obstacles (Ev.fire cam d md time) s).enemies
          = (fireFrame m seed cam d md time s).1.enemies from rfl, heq] at h2
      exact hh e2 h2
    · intro e2 h2
      rw [show (stepEv m seed obstacles (Ev.fire cam d md time) s).enemies
          = (fireFrame m seed cam d md time s).1.enemies from rfl, heq] at h2
      obtain ⟨x, hx, rfl⟩ := hitPass_mem _ _ _ _ _ _ _ h2
      split
      · exact applyHit_bounds m d time _ x (hh x hx).1 (hh x hx).2
          (mul_nonneg (by norm_num) hm)
      · exact hh x hx
  | ai cam delta time =>
    intro e2 h2
    obtain ⟨x, hx, rfl⟩ := aiFrame_mem m seed obstacles cam delta time s e2 h2
    obtain ⟨f1, f2, -, -⟩ := aiMove_fields m seed obstacles cam delta x
    rw [f1, f2]
    exact hh x hx
  | spawn cam angle dist rand eid =>
    intro e2 h2
    rw [show (stepEv m seed obstacles (Ev.spawn cam angle dist rand eid) s).enemies
        = (spawnFrame m seed cam angle dist rand eid s).enemies from rfl] at h2
    unfold spawnFrame at h2
    dsimp only at h2
    rcases List.mem_append.mp h2 with hmem | hmem
    · exact hh e2 hmem
    · rw [List.mem_singleton] at hmem
      subst hmem
      dsimp only
      refine ⟨?_, le_refl _⟩
      cases spawnType rand <;> norm_num [ENEMY_CONFIG]
  | reloadKey => exact hh
  | buy k => exact hh

/-- Once dead, an actor is carried through any event step completely
unchanged (or despawned): the AI never moves it again, the hitscan never
damages it again, and it never re-enters approaching/attacking. -/
theorem dead_frozen (m : JSMath) (seed : ℚ) (obstacles : List Obstacle) (ev : Ev) (s : Sim)
    (e : Enemy) (hnd : (idsOf s.enemies).Nodup) (hfresh : evFresh ev s)
    (he : e ∈ s.enemies) (hdead : e.isDead = true) :
    ∀ e2 ∈ (stepEv m seed obstacles ev s).enemies, e2.id = e.id → e2 = e := by
  intro e2 h2 hid
  cases ev with
  | fire cam d md time =>
    have h2' : e2 ∈ (fireFrame m seed cam d md time s).1.enemies := h2
    rcases fireFrame_enemies_cases m seed cam d md time s with heq | heq
    · rw [heq] at h2'
      exact idsOf_inj _ hnd e2 h2' e he hid
    · rw [heq] at h2'
      obtain ⟨x, hx, hxe⟩ := hitPass_mem _ _ _ _ _ _ _ h2'
      by_cases hc : some x.id = (scanEnemies m seed cam d s.enemies).2
      · rw [if_pos hc] at hxe
        rw [hxe, applyHit_id] at hid
        have hxeq : x = e := idsOf_inj _ hnd x hx e he hid
        rw [hxeq] at hc
        exact absurd hc.symm (scan_not_dead m seed cam d s.enemies hnd e he hdead)
      · rw [if_neg hc] at hxe
        rw [hxe] at hid ⊢
        exact idsOf_inj _ hnd x hx e he hid
  | ai cam delta time =>
    have h2x : e2 ∈ (aiFrame m seed obstacles cam delta time s).enemies := h2
    obtain ⟨x, hx, hxe⟩ := aiFrame_mem m seed obstacles cam delta time s e2 h2x
    obtain ⟨-, -, f3, -⟩ := aiMove_fields m seed obstacles cam delta x
    rw [hxe, f3] at hid
    have hxeq : x = e := idsOf_inj _ hnd x hx e he hid
    rw [hxeq, aiMove_dead m seed obstacles cam delta e hdead] at hxe
    exact hxe
  | spawn cam angle dist rand eid =>
    have h2' : e2 ∈ (spawnFrame m seed cam angle dist rand eid s).enemies := h2
    unfold spawnFrame at h2'
    dsimp only at h2'
    rcases List.mem_append.mp h2' with hmem | hmem
    · exact idsOf_inj _ hnd e2 hmem e he hid
    · rw [List.mem_singleton] at hmem
      subst hmem
      dsimp only at hid
      exact absurd (hid ▸ List.mem_map_of_mem Enemy.id he) hfresh
  | reloadKey => exact idsOf_inj _ hnd e2 h2 e he hid
  | buy k => exact idsOf_inj _ hnd e2 h2 e he hid

/-- A live actor can only become dead through a step that set its hp to
exactly 0 (the lethal-hit branch of the hitscan). -/
theorem newly_dead_zero (m : JSMath) (seed : ℚ) (obstacles : List Obstacle) (ev : Ev)
    (s : Sim) (e : Enemy) (hnd : (idsOf s.enemies).Nodup) (he : e ∈ s.enemies)
    (hlive : e.isDead = false) :
    ∀ e2 ∈ (stepEv m seed obstacles ev s).enemies, e2.id = e.id → e2.isDead = true →
      e2.hp = 0 := by
  intro e2 h2 hid hdead2
  cases ev with
  | fire cam d md time =>
    have h2' : e2 ∈ (fireFrame m seed cam d md time s).1.enemies := h2
    rcases fireFrame_enemies_cases m seed cam d md time s with heq | heq
    · rw [heq] at h2'
      have : e2 = e := idsOf_inj _ hnd e2 h2' e he hid
      rw [this, hlive] at hdead2
      exact Bool.noConfusion hdead2
    · rw [heq] at h2'
      obtain ⟨x, hx, hxe⟩ := hitPass_mem _ _ _ _ _ _ _ h2'
      by_cases hc : some x.id = (scanEnemies m seed cam d s.enemies).2
      · rw [if_pos hc] at hxe
        subst hxe
        unfold applyHit at hdead2 ⊢
        dsimp only at hdead2 ⊢
        split at hdead2
        · rename_i hle
          rw [if_pos hle]
        · rw [applyHit_id] at hid
          have hxeq : x = e := idsOf_inj _ hnd x hx e he hid
          rw [hxeq, hlive] at hdead2
          exact Bool.noConfusion hdead2
      · rw [if_neg hc] at hxe
        rw [hxe] at hid hdead2
        have hxeq : x = e := idsOf_inj _ hnd x hx e he hid
        rw [hxeq, hlive] at hdead2
        exact Bool.noConfusion hdead2
  | ai cam delta time =>
    have h2x : e2 ∈ (aiFrame m seed obstacles cam delta time s).enemies := h2
    obtain ⟨x, hx, hxe⟩ := aiFrame_mem m seed obstacles cam delta time s e2 h2x
    obtain ⟨-, -, f3, f4⟩ := aiMove_fields m seed obstacles cam delta x
    rw [hxe, f3] at hid
    have hxeq : x = e := idsOf_inj _ hnd x hx e he hid
    rw [hxe, f4, hxeq, hlive] at hdead2
    exact Bool.noConfusion hdead2
  | spawn cam angle dist rand eid =>
    have h2' : e2 ∈ (spawnFrame m seed cam angle dist rand eid s).enemies := h2
    unfold spawnFrame at h2'
    dsimp only at h2'
    rcases List.mem_append.mp h2' with hmem | hmem
    · have : e2 = e := idsOf_inj _ hnd e2 hmem e he hid
      rw [this, hlive] at hdead2
      exact Bool.noConfusion hdead2
    · rw [List.mem_singleton] at hmem
      subst hmem
      exact Bool.noConfusion hdead2
  | reloadKey =>
    have : e2 = e := idsOf_inj _ hnd e2 h2 e he hid
    rw [this, hlive] at hdead2
    exact Bool.noConfusion hdead2
  | buy k =>
    have : e2 = e := idsOf_inj _ hnd e2 h2 e he hid
    rw [this, hlive] at hdead2
    exact Bool.noConfusion hdead2

/-- Claim C3: actor hp invariant and one-shot death.  (1) Over every
sequence of simulation/combat events, every actor's hp stays in
`[0, maxHp]`; (2) an actor that is dead before an event step is either
despawned or carried through the step with every field unchanged — it is
never moved by the AI, never re-enters approaching/attacking, and never
takes further hit damage — so the transition into the dead-falling state
happens at most once; (3) a live actor found dead after a step has
`hp = 0`: the only transition into the dead state is the lethal hit that
clamps hp to zero. -/
theorem actor_lifecycle (m : JSMath) (seed : ℚ) (obstacles : List Obstacle) :
    (∀ (evs : List Ev) (s : Sim), HpInv s.enemies → 0 ≤ s.gs.damageMultiplier →
      HpInv (runEv m seed obstacles evs s).enemies) ∧
    (∀ (ev : Ev) (s : Sim) (e : Enemy), (idsOf s.enemies).Nodup → evFresh ev s →
      e ∈ s.enemies → e.isDead = true →
      ∀ e2 ∈ (stepEv m seed obstacles ev s).enemies, e2.id = e.id → e2 = e) ∧
    (∀ (ev : Ev) (s : Sim) (e : Enemy), (idsOf s.enemies).Nodup →
      e ∈ s.enemies → e.isDead = false →
      ∀ e2 ∈ (stepEv m seed obstacles ev s).enemies, e2.id = e.id → e2.isDead = true →
        e2.hp = 0) := by
  refine ⟨?_, dead_frozen m seed obstacles, newly_dead_zero m seed obstacles⟩
  intro evs
  induction evs with
  | nil => exact fun s hh _ => hh
  | cons ev rest ih =>
    intro s hh hm
    exact ih (stepEv m seed obstacles ev s) (stepEv_hpInv m seed obstacles ev s hh hm)
      (stepEv_mult_nonneg m seed obstacles ev s hm)

/-- Witness for `actor_lifecycle` at concrete inputs: a spawn followed by
an AI frame keeps every hp in range, and the dead peasant of `sDead` is
untouched by a reload event and (being the only actor) can only be found
unchanged. -/
theorem actor_lifecycle_witness :
    (HpInv simInit.enemies ∧ (0 : ℚ) ≤ simInit.gs.damageMultiplier ∧
      HpInv (runEv mZero 123 [] [Ev.spawn cam0 0 40 (1/2) "e1", Ev.ai cam0 (1/60) 0]
        simInit).enemies) ∧
    ((idsOf sDead.enemies).Nodup ∧ eDead ∈ sDead.enemies ∧ eDead.isDead = true ∧
      ∀ e2 ∈ (stepEv mZero 123 [] Ev.reloadKey sDead).enemies, e2.id = eDead.id →
        e2 = eDead) ∧
    ((idsOf [eNear]).Nodup ∧ eNear.isDead = false ∧
      ∀ e2 ∈ (stepEv mZero 123 [] (Ev.fire cam0 dir0 true 200)
          { gs := simInit.gs, enemies := [eNear], lastShot := 0 }).enemies,
        e2.id = eNear.id → e2.isDead = true → e2.hp = 0) := by
  refine ⟨⟨?_, by norm_num [simInit], ?_⟩, ⟨by decide, by simp [sDead], rfl, ?_⟩,
    ⟨by decide, rfl, ?_⟩⟩
  · intro e he
    cases he
  · exact (actor_lifecycle mZero 123 []).1 [Ev.spawn cam0 0 40 (1/2) "e1", Ev.ai cam0 (1/60) 0]
      simInit (fun e he => absurd he (List.not_mem_nil e)) (by norm_num [simInit])
  · exact (actor_lifecycle mZero 123 []).2.1 Ev.reloadKey sDead eDead (by decide) trivial
      (by simp [sDead]) rfl
  · exact (actor_lifecycle mZero 123 []).2.2 (Ev.fire cam0 dir0 true 200)
      { gs := simInit.gs, enemies := [eNear], lastShot := 0 } eNear (by decide)
      (by simp) rfl

/- ---------------------------------------------------------------- -/
/- Chunk streaming: helper lemmas.                                   -/
/- ---------------------------------------------------------------- -/

theorem mem_rangeInt {a b x : ℤ} : x ∈ rangeInt a b ↔ a ≤ x ∧ x ≤ b := by
  simp only [rangeInt, List.mem_map, List.mem_range]
  constructor
  · rintro ⟨i, hi, rfl⟩
    omega
  · rintro ⟨h1, h2⟩
    exact ⟨(x - a).toNat, by omega, by omega⟩

theorem rangeInt_nodup (a b : ℤ) : (rangeInt a b).Nodup :=
  List.Nodup.map (fun i j h => by omega) (List.nodup_range _)
theorem mem_chunkKeys {c : ℤ × ℤ} {r : ℤ} {k : ℤ × ℤ} :
    k ∈ chunkKeys c r ↔ |k.1 - c.1| ≤ r ∧ |k.2 - c.2| ≤ r := by
  obtain ⟨kx, kz⟩ := k
  simp only [chunkKeys, List.mem_flatMap, List.mem_map, mem_rangeInt, Prod.mk.injEq]
  constructor
  · rintro ⟨x, hx, z, hz, rfl, rfl⟩
    constructor <;> [skip; skip] <;> simp only [abs_le] <;> omega
  · rintro ⟨h1, h2⟩
    rw [abs_le] at h1 h2
    exact ⟨kx, ⟨by omega, by omega⟩, kz, ⟨by omega, by omega⟩, rfl, rfl⟩

theorem chunkKeys_nodup (c : ℤ × ℤ) (r : ℤ) : (chunkKeys c r).Nodup := by
  rw [chunkKeys, List.nodup_flatMap]
  refine ⟨fun x _ => List.Nodup.map (fun z w h => by injection h) (rangeInt_nodup _ _), ?_⟩
  refine List.Pairwise.imp ?_ (rangeInt_nodup (c.1 - r) (c.1 + r))
  intro x y hxy o h1 h2
  simp only [Function.onFun, List.mem_map] at h1 h2
  obtain ⟨z1, _, rfl⟩ := h1
  obtain ⟨z2, _, he⟩ := h2
  exact hxy (congrArg Prod.fst he).symm

theorem streamFold_spec (gen : ℤ × ℤ → List Obstacle) :
    ∀ (keys : List (ℤ × ℤ)), keys.Nodup → ∀ (L : Finset (ℤ × ℤ)) (obs0 : List Obstacle),
      keys.foldl
        (fun (acc : Finset (ℤ × ℤ) × List Obstacle) k =>
          if k ∈ acc.1 then acc else (insert k acc.1, acc.2 ++ gen k)) (L, obs0) =
      (L ∪ keys.toFinset,
        obs0 ++ (keys.filter fun k => decide (k ∉ L)).flatMap gen) := by
  intro keys
  induction keys with
  | nil => intro _ L obs0; simp
  | cons k ks ih =>
    intro hnd L obs0
    rw [List.nodup_cons] at hnd
    rw [List.foldl_cons]
    by_cases hk : k ∈ L
    · rw [if_pos hk, ih hnd.2 L obs0]
      have h1 : L ∪ (k :: ks).toFinset = L ∪ ks.toFinset := by
        rw [List.toFinset_cons, Finset.union_insert,
          Finset.insert_eq_self.mpr (Finset.mem_union_left _ hk)]
      have h2 : List.filter (fun k => decide (k ∉ L)) (k :: ks) =
          List.filter (fun k => decide (k ∉ L)) ks := by
        rw [List.filter_cons]
        simp [hk]
      rw [h1, h2]
    · rw [if_neg hk, ih hnd.2 (insert k L) (obs0 ++ gen k)]
      have h1 : insert k L ∪ ks.toFinset = L ∪ (k :: ks).toFinset := by
        rw [List.toFinset_cons, Finset.union_insert, Finset.insert_union]
      have h2 : List.filter (fun j => decide (j ∉ insert k L)) ks =
          List.filter (fun j => decide (j ∉ L)) ks := by
        refine List.filter_congr fun x hx => ?_
        have hxk : x ≠ k := fun he => hnd.1 (he ▸ hx)
        simp [Finset.mem_insert, hxk]
      have h3 : List.filter (fun j => decide (j ∉ L)) (k :: ks) =
          k :: List.filter (fun j => decide (j ∉ L)) ks := by
        rw [List.filter_cons, if_pos (by simpa using hk)]
      rw [h1, h2, h3, List.flatMap_cons, List.append_assoc]
theorem wgUpdate_stream_spec (m : JSMath) (seed px pz : ℚ) (s : WGState) :
    wgUpdate m seed px pz s =
      { loaded := s.loaded ∪
          (chunkKeys (⌊px / CHUNK_SIZE⌋, ⌊pz / CHUNK_SIZE⌋) RENDER_DISTANCE).toFinset,
        obstacles := s.obstacles ++
          ((chunkKeys (⌊px / CHUNK_SIZE⌋, ⌊pz / CHUNK_SIZE⌋) RENDER_DISTANCE).filter
            fun k => decide (k ∉ s.loaded)).flatMap
            fun k => generateChunk m k.1 k.2 seed } := by
  unfold wgUpdate
  have h := streamFold_spec (fun k => generateChunk m k.1 k.2 seed)
    (chunkKeys (⌊px / CHUNK_SIZE⌋, ⌊pz / CHUNK_SIZE⌋) RENDER_DISTANCE)
    (chunkKeys_nodup _ _) s.loaded []
  dsimp only
  rw [h]
  rfl

theorem oTree_mem : oTree ∈ generateChunk mZero 0 0 123 := by
  norm_num [generateChunk, getRoadInfluence, getTerrainHeight, smoothNoise, noise,
    seededRandom, jsFract, jsRem, jsTrunc, jsXor, toInt32Z, toUInt32Z, mZero, CHUNK_SIZE,
    oTree, List.range_succ, List.flatMap_cons, List.flatMap_nil, abs_lt, abs_le]
  exact ⟨0, by norm_num, rfl⟩
theorem foldl_pred {α β : Type} (P : α → Prop) (f : List α → β → List α)
    (hf : ∀ acc i, (∀ o ∈ acc, P o) → ∀ o ∈ f acc i, P o) :
    ∀ (l : List β) (acc : List α), (∀ o ∈ acc, P o) → ∀ o ∈ l.foldl f acc, P o := by
  intro l
  induction l with
  | nil => exact fun acc h => h
  | cons b t ih => exact fun acc h => ih (f acc b) (hf acc b h)

theorem coordsSet_append (a b : List Obstacle) :
    coordsSet (a ++ b) = coordsSet a ∪ coordsSet b := by
  simp [coordsSet]

theorem V1.generateChunk_coords (m : JSMath) (cx cz : ℤ) :
    ∀ o ∈ V1.generateChunk m cx cz, o.id.cx = cx ∧ o.id.cz = cz := by
  intro o ho
  unfold V1.generateChunk at ho
  dsimp only at ho
  rcases List.mem_append.mp ho with h | hruin
  · rcases List.mem_append.mp h with hfold | hrock
    · refine foldl_pred (fun (o : Obstacle) => o.id.cx = cx ∧ o.id.cz = cz) _ ?_ _ _ ?_ o hfold
      · intro acc i hacc o' ho'
        split at ho'
        · exact hacc o' ho'
        · rcases List.mem_append.mp ho' with h' | h'
          · exact hacc o' h'
          · rw [List.mem_singleton] at h'
            subst h'
            exact ⟨rfl, rfl⟩
      · intro o' ho'
        split at ho'
        · obtain ⟨i, _, rfl⟩ := List.mem_map.mp ho'
          exact ⟨rfl, rfl⟩
        · simp at ho'
    · obtain ⟨i, _, rfl⟩ := List.mem_map.mp hrock
      exact ⟨rfl, rfl⟩
  · split at hruin
    · rw [List.mem_singleton] at hruin
      subst hruin
      exact ⟨rfl, rfl⟩
    · simp at hruin

theorem V1.generateChunk_ne_nil (m : JSMath) (cx cz : ℤ) :
    V1.generateChunk m cx cz ≠ [] := by
  unfold V1.generateChunk
  dsimp only
  intro h
  rw [List.append_eq_nil] at h
  obtain ⟨h1, h2⟩ := h
  rw [List.append_eq_nil] at h1
  obtain ⟨h3, h4⟩ := h1
  rw [List.map_eq_nil_iff, List.range_eq_nil] at h4
  have h0 : (0 : ℚ) ≤ seededRandom m
      ((jsXor (cx * 73856093) (cz * 19349663) : ℤ) + 2) * 5 :=
    mul_nonneg (seededRandom_nonneg _ _) (by norm_num)
  have h5 : 0 ≤ ⌊seededRandom m
      ((jsXor (cx * 73856093) (cz * 19349663) : ℤ) + 2) * 5⌋ :=
    Int.floor_nonneg.mpr h0
  omega

theorem V1.coordsSet_generateChunk (m : JSMath) (cx cz : ℤ) :
    coordsSet (V1.generateChunk m cx cz) = {(cx, cz)} := by
  apply Finset.ext
  intro k
  simp only [coordsSet, List.mem_toFinset, List.mem_map, Finset.mem_singleton]
  constructor
  · rintro ⟨o, ho, rfl⟩
    obtain ⟨h1, h2⟩ := V1.generateChunk_coords m cx cz o ho
    rw [h1, h2]
  · rintro rfl
    obtain ⟨o, ho⟩ := List.exists_mem_of_ne_nil _ (V1.generateChunk_ne_nil m cx cz)
    refine ⟨o, ho, ?_⟩
    obtain ⟨h1, h2⟩ := V1.generateChunk_coords m cx cz o ho
    rw [h1, h2]

theorem V1.coordsSet_flatMap (m : JSMath) (l : List (ℤ × ℤ)) :
    coordsSet (l.flatMap fun k => V1.generateChunk m k.1 k.2) = l.toFinset := by
  induction l with
  | nil => rfl
  | cons k t ih =>
    rw [List.flatMap_cons, coordsSet_append, V1.coordsSet_generateChunk, ih,
      List.toFinset_cons]
    exact Finset.ext fun x => by simp [Finset.mem_union, Finset.mem_insert]
theorem V1.wgUpdate_spec (m : JSMath) (px pz : ℚ) (s : V1.WGState) :
    V1.wgUpdate m px pz s =
      (let c : ℤ × ℤ := (⌊px / CHUNK_SIZE⌋, ⌊pz / CHUNK_SIZE⌋)
       let keys := chunkKeys c RENDER_DISTANCE
       let newObs := (keys.filter fun k => decide (k ∉ s.loaded)).flatMap
         fun k => V1.generateChunk m k.1 k.2
       if s.lastChunk = some c then s
       else if newObs = [] then
         { obstacles := s.obstacles, loaded := s.loaded ∪ keys.toFinset,
           lastChunk := some c }
       else
         let filtered := s.obstacles.filter fun o =>
           decide (|o.id.cx - c.1| ≤ RENDER_DISTANCE + 1) &&
             decide (|o.id.cz - c.2| ≤ RENDER_DISTANCE + 1)
         { obstacles := filtered ++ newObs,
           loaded := coordsSet filtered ∪ keys.toFinset,
           lastChunk := some c }) := by
  unfold V1.wgUpdate
  have h := streamFold_spec (fun k => V1.generateChunk m k.1 k.2)
    (chunkKeys (⌊px / CHUNK_SIZE⌋, ⌊pz / CHUNK_SIZE⌋) RENDER_DISTANCE)
    (chunkKeys_nodup _ _) s.loaded []
  dsimp only
  rw [h, List.nil_append]
  rfl
theorem V1.wgUpdate_reach (m : JSMath) (px pz : ℚ) (s : V1.WGState)
    (h : wgReach s) : wgReach (V1.wgUpdate m px pz s) := by
  rw [V1.wgUpdate_spec m px pz s]
  dsimp only
  generalize (⌊px / CHUNK_SIZE⌋ : ℤ) = A
  generalize (⌊pz / CHUNK_SIZE⌋ : ℤ) = B
  split
  · exact h
  · split
    · next hnil =>
      have hmiss : (chunkKeys (A, B) RENDER_DISTANCE).filter
          (fun k => decide (k ∉ s.loaded)) = [] :=
        List.eq_nil_iff_forall_not_mem.mpr fun k hk =>
          V1.generateChunk_ne_nil m k.1 k.2 (List.flatMap_eq_nil_iff.mp hnil k hk)
      have hsub : ∀ k ∈ chunkKeys (A, B) RENDER_DISTANCE, k ∈ s.loaded := by
        intro k hk
        by_contra hnk
        have hmem : k ∈ (chunkKeys (A, B) RENDER_DISTANCE).filter
            (fun k => decide (k ∉ s.loaded)) :=
          List.mem_filter.mpr ⟨hk, by simpa using hnk⟩
        rw [hmiss] at hmem
        exact absurd hmem (List.not_mem_nil k)
      rcases h with ⟨hobs, hload, _⟩ | ⟨c0, hlast, hinv⟩
      · exfalso
        have hCk : (A, B) ∈ chunkKeys (A, B) RENDER_DISTANCE :=
          mem_chunkKeys.mpr (by norm_num [RENDER_DISTANCE])
        have hmem := hsub _ hCk
        rw [hload] at hmem
        exact absurd hmem (Finset.not_mem_empty _)
      · refine Or.inr ⟨(A, B), rfl, ?_, ?_, ?_⟩
        · show s.loaded ∪ (chunkKeys (A, B) RENDER_DISTANCE).toFinset =
            coordsSet s.obstacles
          rw [Finset.union_eq_left.mpr fun k hk => hsub k (List.mem_toFinset.mp hk)]
          exact hinv.1
        · intro k hk1 hk2
          have hmem := hsub k (mem_chunkKeys.mpr ⟨hk1, hk2⟩)
          rw [hinv.1] at hmem
          exact hmem
        · exact hinv.2.2
    · next hne =>
      have hLoaded : s.loaded = coordsSet s.obstacles := by
        rcases h with ⟨hobs, hload, _⟩ | ⟨c0, _, hinv⟩
        · rw [hload, hobs]
          rfl
        · exact hinv.1
      have hspan : ∀ o1 ∈ s.obstacles, ∀ o2 ∈ s.obstacles,
          |o1.id.cx - o2.id.cx| ≤ 5 ∧ |o1.id.cz - o2.id.cz| ≤ 5 := by
        rcases h with ⟨hobs, _, _⟩ | ⟨c0, _, hinv⟩
        · intro o1 h1
          rw [hobs] at h1
          exact absurd h1 (List.not_mem_nil _)
        · exact hinv.2.2
      have hfilt : ∀ o ∈ s.obstacles.filter (fun o =>
          decide (|o.id.cx - A| ≤ RENDER_DISTANCE + 1) &&
            decide (|o.id.cz - B| ≤ RENDER_DISTANCE + 1)),
          o ∈ s.obstacles ∧ |o.id.cx - A| ≤ RENDER_DISTANCE + 1 ∧
            |o.id.cz - B| ≤ RENDER_DISTANCE + 1 := by
        intro o ho
        have h1 := List.mem_filter.mp ho
        have h2 := h1.2
        simp only [Bool.and_eq_true, decide_eq_true_eq] at h2
        exact ⟨h1.1, h2.1, h2.2⟩
      have hnew : ∀ o ∈ ((chunkKeys (A, B) RENDER_DISTANCE).filter
          (fun k => decide (k ∉ s.loaded))).flatMap
            (fun k => V1.generateChunk m k.1 k.2),
          |o.id.cx - A| ≤ RENDER_DISTANCE ∧ |o.id.cz - B| ≤ RENDER_DISTANCE := by
        intro o ho
        obtain ⟨k, hk, hok⟩ := List.mem_flatMap.mp ho
        obtain ⟨h1, h2⟩ := V1.generateChunk_coords m k.1 k.2 o hok
        obtain ⟨ha, hb⟩ := mem_chunkKeys.mp (List.mem_filter.mp hk).1
        exact ⟨by rw [h1]; exact ha, by rw [h2]; exact hb⟩
      have hUnion : coordsSet (s.obstacles.filter (fun o =>
            decide (|o.id.cx - A| ≤ RENDER_DISTANCE + 1) &&
              decide (|o.id.cz - B| ≤ RENDER_DISTANCE + 1))) ∪
            (chunkKeys (A, B) RENDER_DISTANCE).toFinset =
          coordsSet (s.obstacles.filter (fun o =>
            decide (|o.id.cx - A| ≤ RENDER_DISTANCE + 1) &&
              decide (|o.id.cz - B| ≤ RENDER_DISTANCE + 1))) ∪
            ((chunkKeys (A, B) RENDER_DISTANCE).filter
              (fun k => decide (k ∉ s.loaded))).toFinset := by
        apply Finset.ext
        intro x
        simp only [Finset.mem_union, List.mem_toFinset]
        constructor
        · rintro (hx | hx)
          · exact Or.inl hx
          · by_cases hxl : x ∈ s.loaded
            · left
              rw [hLoaded] at hxl
              obtain ⟨o, ho, hox⟩ := List.mem_map.mp (List.mem_toFinset.mp hxl)
              obtain ⟨ha, hb⟩ := mem_chunkKeys.mp hx
              have e1 : o.id.cx = x.1 := congrArg Prod.fst hox
              have e2 : o.id.cz = x.2 := congrArg Prod.snd hox
              refine List.mem_toFinset.mpr (List.mem_map.mpr
                ⟨o, List.mem_filter.mpr ⟨ho, ?_⟩, hox⟩)
              simp only [Bool.and_eq_true, decide_eq_true_eq]
              refine ⟨?_, ?_⟩
              · rw [e1]
                exact le_trans ha (le_add_of_nonneg_right zero_le_one)
              · rw [e2]
                exact le_trans hb (le_add_of_nonneg_right zero_le_one)
            · exact Or.inr (List.mem_filter.mpr ⟨hx, by simpa using hxl⟩)
        · rintro (hx | hx)
          · exact Or.inl hx
          · exact Or.inr (List.mem_filter.mp hx).1
      have hEq : coordsSet (s.obstacles.filter (fun o =>
            decide (|o.id.cx - A| ≤ RENDER_DISTANCE + 1) &&
              decide (|o.id.cz - B| ≤ RENDER_DISTANCE + 1))) ∪
            (chunkKeys (A, B) RENDER_DISTANCE).toFinset =
          coordsSet (s.obstacles.filter (fun o =>
            decide (|o.id.cx - A| ≤ RENDER_DISTANCE + 1) &&
              decide (|o.id.cz - B| ≤ RENDER_DISTANCE + 1)) ++
            ((chunkKeys (A, B) RENDER_DISTANCE).filter
              (fun k => decide (k ∉ s.loaded))).flatMap
              (fun k => V1.generateChunk m k.1 k.2)) := by
        rw [coordsSet_append, V1.coordsSet_flatMap, hUnion]
      refine Or.inr ⟨(A, B), rfl, hEq, ?_, ?_⟩
      · intro k hk1 hk2
        rw [← hEq]
        exact Finset.mem_union_right _
          (List.mem_toFinset.mpr (mem_chunkKeys.mpr ⟨hk1, hk2⟩))
      · intro o1 h1 o2 h2
        have hRD : RENDER_DISTANCE = 2 := rfl
        rcases List.mem_append.mp h1 with hf1 | hn1 <;>
          rcases List.mem_append.mp h2 with hf2 | hn2
        · exact hspan o1 (hfilt o1 hf1).1 o2 (hfilt o2 hf2).1
        · obtain ⟨_, ha1, hb1⟩ := hfilt o1 hf1
          obtain ⟨ha2, hb2⟩ := hnew o2 hn2
          rw [hRD] at ha1 hb1 ha2 hb2
          have a1 := abs_le.mp ha1
          have b1 := abs_le.mp hb1
          have a2 := abs_le.mp ha2
          have b2 := abs_le.mp hb2
          refine ⟨?_, ?_⟩ <;> rw [abs_le] <;> omega
        · obtain ⟨ha1, hb1⟩ := hnew o1 hn1
          obtain ⟨_, ha2, hb2⟩ := hfilt o2 hf2
          rw [hRD] at ha1 hb1 ha2 hb2
          have a1 := abs_le.mp ha1
          have b1 := abs_le.mp hb1
          have a2 := abs_le.mp ha2
          have b2 := abs_le.mp hb2
          refine ⟨?_, ?_⟩ <;> rw [abs_le] <;> omega
        · obtain ⟨ha1, hb1⟩ := hnew o1 hn1
          obtain ⟨ha2, hb2⟩ := hnew o2 hn2
          rw [hRD] at ha1 hb1 ha2 hb2
          have a1 := abs_le.mp ha1
          have b1 := abs_le.mp hb1
          have a2 := abs_le.mp ha2
          have b2 := abs_le.mp hb2
          refine ⟨?_, ?_⟩ <;> rw [abs_le] <;> omega
theorem V1.wgRun_reach (m : JSMath) (moves : List (ℚ × ℚ)) :
    wgReach (V1.wgRun m moves V1.wgInit) := by
  suffices h : ∀ (mvs : List (ℚ × ℚ)) (s : V1.WGState),
      wgReach s → wgReach (V1.wgRun m mvs s) from
    h moves V1.wgInit (Or.inl ⟨rfl, rfl, rfl⟩)
  intro mvs
  induction mvs with
  | nil => exact fun s hs => hs
  | cons mv t ih => exact fun s hs => ih _ (V1.wgUpdate_reach m mv.1 mv.2 s hs)

theorem V1.wgUpdate_lastChunk (m : JSMath) (px pz : ℚ) (s : V1.WGState) :
    (V1.wgUpdate m px pz s).lastChunk =
      some (⌊px / CHUNK_SIZE⌋, ⌊pz / CHUNK_SIZE⌋) := by
  rw [V1.wgUpdate_spec]
  dsimp only
  split
  · next heq => exact heq
  · split <;> rfl

/- ---------------------------------------------------------------- -/
/- Claim C4.                                                         -/
/- ---------------------------------------------------------------- -/

/-- Claim C4 (counterexample): the final variant's `WorldGen` never
evicts anything.  From a fresh world with seed `123`, an update at the
origin loads chunk `(0, 0)` (whose generated list contains the tree
`oTree`); a second update at position `(610, 610)` — current chunk
`(10, 10)`, computed by the floor division shown — still holds an
obstacle whose id-embedded chunk coordinate lies at Chebyshev distance
`10 > RENDER_DISTANCE + 1` from the current chunk, so the claimed
drop of far obstacles does not happen in this variant. -/
theorem eviction_counterexample :
    ⌊(610 : ℚ) / CHUNK_SIZE⌋ = 10 ∧
    ((wgUpdate mZero 123 610 610 (wgUpdate mZero 123 0 0 wgInit)).obstacles.any
      fun o => decide (RENDER_DISTANCE + 1 < chebDist (o.id.cx, o.id.cz) (10, 10))) = true := by
  constructor
  · norm_num [CHUNK_SIZE]
  · refine List.any_eq_true.mpr ⟨oTree, ?_, by decide⟩
    have h1 : oTree ∈ (wgUpdate mZero 123 0 0 wgInit).obstacles := by
      rw [wgUpdate_stream_spec]
      refine List.mem_append_right _ (List.mem_flatMap.mpr ⟨(0, 0), ?_, oTree_mem⟩)
      rw [List.mem_filter]
      refine ⟨mem_chunkKeys.mpr ⟨?_, ?_⟩, by decide⟩
      · norm_num [CHUNK_SIZE, RENDER_DISTANCE]
      · norm_num [CHUNK_SIZE, RENDER_DISTANCE]
    rw [wgUpdate_stream_spec]
    exact List.mem_append_left _ h1

/-- Claim C4 (amended): eviction consistency holds for the earlier
variant's `WorldGenerator`.  After any sequence of movement updates from
a fresh world, writing `c` for the chunk recorded by the last crossing:
every live obstacle's id-embedded chunk coordinate lies within Chebyshev
distance `RENDER_DISTANCE + 1` of `c`, and `loadedChunks` equals exactly
the set of chunk coordinates embedded in the live obstacles' ids
together with the active chunk keys around `c`. -/
theorem eviction_consistency (m : JSMath) (moves : List (ℚ × ℚ)) (c : ℤ × ℤ)
    (h : (V1.wgRun m moves V1.wgInit).lastChunk = some c) :
    (∀ o ∈ (V1.wgRun m moves V1.wgInit).obstacles,
      chebDist (o.id.cx, o.id.cz) c ≤ RENDER_DISTANCE + 1) ∧
    (V1.wgRun m moves V1.wgInit).loaded =
      coordsSet (V1.wgRun m moves V1.wgInit).obstacles ∪
        (chunkKeys c RENDER_DISTANCE).toFinset := by
  obtain ⟨_, _, hnone⟩ | ⟨c0, hlast, hinv⟩ := V1.wgRun_reach m moves
  · rw [hnone] at h
    exact absurd h (Option.noConfusion)
  · rw [hlast] at h
    have hc : c0 = c := Option.some.inj h
    subst hc
    have hRD : RENDER_DISTANCE = 2 := rfl
    have hcov := hinv.2.1
    have hspan := hinv.2.2
    have anchor : ∀ a : ℤ × ℤ, |a.1 - c0.1| ≤ RENDER_DISTANCE →
        |a.2 - c0.2| ≤ RENDER_DISTANCE →
        ∃ o1 ∈ (V1.wgRun m moves V1.wgInit).obstacles,
          o1.id.cx = a.1 ∧ o1.id.cz = a.2 := by
      intro a h1 h2
      obtain ⟨o1, ho1, he⟩ := List.mem_map.mp (List.mem_toFinset.mp (hcov a h1 h2))
      exact ⟨o1, ho1, congrArg Prod.fst he, congrArg Prod.snd he⟩
    constructor
    · intro o ho
      obtain ⟨o1, ho1, e1x, _⟩ := anchor (c0.1 - 2, c0.2)
        (by simp [hRD]) (by simp [hRD])
      obtain ⟨o2, ho2, e2x, _⟩ := anchor (c0.1 + 2, c0.2)
        (by simp [hRD]) (by simp [hRD])
      obtain ⟨o3, ho3, _, e3z⟩ := anchor (c0.1, c0.2 - 2)
        (by simp [hRD]) (by simp [hRD])
      obtain ⟨o4, ho4, _, e4z⟩ := anchor (c0.1, c0.2 + 2)
        (by simp [hRD]) (by simp [hRD])
      have s1 := abs_le.mp (hspan o ho o1 ho1).1
      have s2 := abs_le.mp (hspan o ho o2 ho2).1
      have s3 := abs_le.mp (hspan o ho o3 ho3).2
      have s4 := abs_le.mp (hspan o ho o4 ho4).2
      rw [e1x] at s1
      rw [e2x] at s2
      rw [e3z] at s3
      rw [e4z] at s4
      rw [chebDist, hRD]
      refine max_le ?_ ?_ <;> rw [abs_le] <;> constructor <;> dsimp only <;> omega
    · rw [hinv.1]
      refine (Finset.union_eq_left.mpr fun k hk => ?_).symm
      obtain ⟨h1, h2⟩ := mem_chunkKeys.mp (List.mem_toFinset.mp hk)
      exact hcov k h1 h2

/-- Witness for `eviction_consistency`: a single update at the origin;
the hypothesis holds with current chunk `(0, 0)` and the theorem applies. -/
theorem eviction_consistency_witness :
    (V1.wgRun mZero [(0, 0)] V1.wgInit).lastChunk = some (0, 0) ∧
    (∀ o ∈ (V1.wgRun mZero [(0, 0)] V1.wgInit).obstacles,
      chebDist (o.id.cx, o.id.cz) (0, 0) ≤ RENDER_DISTANCE + 1) ∧
    (V1.wgRun mZero [(0, 0)] V1.wgInit).loaded =
      coordsSet (V1.wgRun mZero [(0, 0)] V1.wgInit).obstacles ∪
        (chunkKeys (0, 0) RENDER_DISTANCE).toFinset := by
  have hl : (V1.wgRun mZero [(0, 0)] V1.wgInit).lastChunk = some (0, 0) := by
    show (V1.wgUpdate mZero 0 0 V1.wgInit).lastChunk = some (0, 0)
    rw [V1.wgUpdate_lastChunk]
    norm_num [CHUNK_SIZE]
  exact ⟨hl, eviction_consistency mZero [(0, 0)] (0, 0) hl⟩
